import Mathlib

/-!
Verification of `enums` (github.com/marianolg/enums).

A shallow embedding of `enums.go`: the `Enum` value set, its constructors `New` and
`NewConvert`, the queries `IsValid`, `IsAnyValid` and `AreAllValid`, and the typed methods
`SetTypedIsValid`, `SetTypedIsAnyValid` and `SetTypedAreAllValid`.

* A Go `interface{}` value is a `Value`: either `nil` or a dynamic type with its data.
* A `reflect.Type` is a `GoType`; a possibly-nil `reflect.Type` is an `Option GoType`.
* A `panic` is an `Except.error` carrying a `Panic`: the arguments of the message the
  source formats, or the runtime error raised by a method call on a nil `reflect.Type`.
* The map `enumListMap` is an association list searched with Go's `==` on interface values.
* `reflect.Type.ConvertibleTo` and `reflect.Value.Convert` belong to Go's standard library,
  not to this repository: the embedding takes them as a parameter (`Reflect`).
* The function variables a target may point to are a `Memory`, passed through
  `setTypedMethod` also when it panics; the function `reflect.MakeFunc` makes is a
  `FuncVal`, called with one `RValue` for each declared parameter.
-/

deriving instance DecidableEq for Except

namespace Enums

/-! ## Types -/

/-- The kinds of `reflect.Kind`, in the order the `reflect` package declares them. -/
inductive Kind where
  | Invalid | Bool
  | Int | Int8 | Int16 | Int32 | Int64
  | Uint | Uint8 | Uint16 | Uint32 | Uint64 | Uintptr
  | Float32 | Float64 | Complex64 | Complex128
  | Array | Chan | Func | Interface | Map | Ptr | Slice | String | Struct | UnsafePointer
deriving DecidableEq

/-- The predeclared boolean, numeric and string types of Go. -/
inductive Basic where
  | bool
  | int | int8 | int16 | int32 | int64
  | uint | uint8 | uint16 | uint32 | uint64 | uintptr
  | float32 | float64 | complex64 | complex128
  | string
deriving DecidableEq

/-- The kind of a predeclared type. -/
def Basic.kind : Basic → Kind
  | .bool => .Bool
  | .int => .Int | .int8 => .Int8 | .int16 => .Int16 | .int32 => .Int32 | .int64 => .Int64
  | .uint => .Uint | .uint8 => .Uint8 | .uint16 => .Uint16 | .uint32 => .Uint32
  | .uint64 => .Uint64 | .uintptr => .Uintptr
  | .float32 => .Float32 | .float64 => .Float64
  | .complex64 => .Complex64 | .complex128 => .Complex128
  | .string => .String

mutual
/-- A Go type as `reflect.Type` describes it. Two descriptors are equal exactly when the
types are identical, which is what `==` on `reflect.Type` decides. -/
inductive GoType where
  | basic (b : Basic)
  | named (name : String) (underlying : GoType)
  | array (len : Nat) (elem : GoType)
  | chan (elem : GoType)
  | func (ins : GoTypes) (outs : GoTypes) (variadic : Bool)
  | iface (name : String)
  | map (key : GoType) (elem : GoType)
  | ptr (elem : GoType)
  | slice (elem : GoType)
  | structT (name : String)
  | unsafePointer
/-- A list of Go types: the parameters or the results of a function type. -/
inductive GoTypes where
  | nil
  | cons (head : GoType) (tail : GoTypes)
end

deriving instance DecidableEq for GoType, GoTypes

/-- The method `reflect.Type.Kind`. A defined (named) type has the kind of its underlying
type. -/
def GoType.Kind : GoType → Kind
  | .basic b => b.kind
  | .named _ u => u.Kind
  | .array _ _ => .Array
  | .chan _ => .Chan
  | .func _ _ _ => .Func
  | .iface _ => .Interface
  | .map _ _ => .Map
  | .ptr _ => .Ptr
  | .slice _ => .Slice
  | .structT _ => .Struct
  | .unsafePointer => .UnsafePointer

/-- The types of a parameter or result list, in order. -/
def GoTypes.toList : GoTypes → List GoType
  | .nil => []
  | .cons t ts => t :: ts.toList

/-- The parameter or result list made of the given types. -/
def GoTypes.ofList : List GoType → GoTypes
  | [] => .nil
  | t :: ts => .cons t (GoTypes.ofList ts)

/-- The underlying type: that of a defined type, and the type itself otherwise. -/
def GoType.underlying : GoType → GoType
  | .named _ u => u.underlying
  | t => t

/-- The method `reflect.Type.Elem`, with `none` where `reflect` panics (a kind that has no
element type). -/
def GoType.Elem (t : GoType) : Option GoType :=
  match t.underlying with
  | .array _ el => some el
  | .chan el => some el
  | .map _ el => some el
  | .ptr el => some el
  | .slice el => some el
  | _ => none

/-- The method `reflect.Type.NumIn` of a function type (0 for another kind, where
`reflect` panics). -/
def GoType.NumIn (t : GoType) : Nat :=
  match t.underlying with
  | .func ins _ _ => ins.toList.length
  | _ => 0

/-- The method `reflect.Type.In`, with `none` where `reflect` panics. -/
def GoType.In (t : GoType) (i : Nat) : Option GoType :=
  match t.underlying with
  | .func ins _ _ => ins.toList[i]?
  | _ => none

/-- The method `reflect.Type.NumOut` of a function type (0 for another kind, where
`reflect` panics). -/
def GoType.NumOut (t : GoType) : Nat :=
  match t.underlying with
  | .func _ outs _ => outs.toList.length
  | _ => 0

/-- The method `reflect.Type.Out`, with `none` where `reflect` panics. -/
def GoType.Out (t : GoType) (i : Nat) : Option GoType :=
  match t.underlying with
  | .func _ outs _ => outs.toList[i]?
  | _ => none

/-- The method `reflect.Type.IsVariadic` of a function type. -/
def GoType.IsVariadic (t : GoType) : Bool :=
  match t.underlying with
  | .func _ _ v => v
  | _ => false

/-- The function `reflect.SliceOf`. -/
def SliceOf (t : GoType) : GoType := .slice t

/-- The function `reflect.FuncOf`. -/
def FuncOf (ins outs : List GoType) (variadic : Bool) : GoType :=
  .func (GoTypes.ofList ins) (GoTypes.ofList outs) variadic

/-! ## Values -/

/-- The data of a non-nil interface value. Integers are mathematical integers; a
floating-point number is its IEEE 754 bit pattern (32 or 64 bits), a complex number a
pair of them; a string is its bytes; a value of any other kind (slice, pointer, ...) is
an address. -/
inductive Data where
  | bool (b : Bool)
  | int (i : Int)
  | uint (n : Nat)
  | float32 (bits : Nat)
  | float64 (bits : Nat)
  | complex64 (re : Nat) (im : Nat)
  | complex128 (re : Nat) (im : Nat)
  | str (bytes : List Nat)
  | ref (addr : Nat)
deriving DecidableEq

/-- A Go `interface{}` value: `nil`, or a dynamic type together with its data. -/
inductive Value where
  | nil
  | mk (t : GoType) (d : Data)
deriving DecidableEq

/-- The function `reflect.TypeOf`: the dynamic type, and a nil `reflect.Type` for a nil
interface value. -/
def TypeOf : Value → Option GoType
  | .nil => none
  | .mk t _ => some t

/-- Whether an IEEE 754 bit pattern with `m` mantissa bits and `x` exponent bits is a
NaN: the exponent field is all ones and the mantissa is not zero. -/
def isNaN (m x bits : Nat) : Bool :=
  (bits / 2 ^ m) % 2 ^ x == 2 ^ x - 1 && bits % 2 ^ m != 0

/-- Go's `==` on two floating-point numbers given by bit patterns with `m` mantissa bits
and `x` exponent bits: a NaN equals nothing, the two zeros are equal, and any other two
numbers are equal when their bit patterns are. -/
def floatEq (m x a b : Nat) : Bool :=
  !isNaN m x a && !isNaN m x b &&
    (a == b || (a % 2 ^ (m + x) == 0 && b % 2 ^ (m + x) == 0))

/-- Go's `==` on the data of two values of one type. -/
def Data.goEq : Data → Data → Bool
  | .bool a, .bool b => a == b
  | .int a, .int b => a == b
  | .uint a, .uint b => a == b
  | .float32 a, .float32 b => floatEq 23 8 a b
  | .float64 a, .float64 b => floatEq 52 11 a b
  | .complex64 a b, .complex64 c d => floatEq 23 8 a c && floatEq 23 8 b d
  | .complex128 a b, .complex128 c d => floatEq 52 11 a c && floatEq 52 11 b d
  | .str a, .str b => a == b
  | .ref a, .ref b => a == b
  | _, _ => false

/-- Go's `==` on two interface values, the equality a map with `interface{}` keys uses:
both nil, or identical dynamic types and equal data. -/
def ifaceEq : Value → Value → Bool
  | .nil, .nil => true
  | .mk t d, .mk u c => t == u && d.goEq c
  | _, _ => false

/-! ## The map `enumListMap` -/

/-- The type `enumListMap`, `map[interface{}]interface{}`, as the list of its entries. -/
abbrev enumListMap := List (Value × Value)

/-- The `found` result of the lookup `_, found := m[key]`: some entry has a key `==` to
`key`. Both lookups of `enums.go` come after the type guards, with a key whose type is
the Enum's value type (of a hashable kind), so the runtime error Go raises for a key of
an unhashable type such as a slice does not arise and is not modelled. -/
def enumListMap.found (m : enumListMap) (key : Value) : Bool :=
  m.any (fun kv => ifaceEq kv.1 key)

/-- The assignment `m[key] = val`: the entry of an equal key is replaced, and a new
entry is added when there is none. -/
def enumListMap.set (m : enumListMap) (key val : Value) : enumListMap :=
  if m.found key then m.map (fun kv => if ifaceEq kv.1 key then (key, val) else kv)
  else m ++ [(key, val)]

/-- The keys of the map: the values the Enum stores. -/
def enumListMap.keys (m : enumListMap) : List Value :=
  m.map Prod.fst

/-! ## Panics -/

/-- The details `panicWithDetails` is called with: "not a pointer", "not a function",
"check IN args" and "check OUT args". -/
inductive Details where
  | notPointer | notFunction | checkIn | checkOut
deriving DecidableEq

/-- The panics of `enums.go` that the queries and constructors raise, each with the
arguments its message is formatted from. -/
inductive Panic where
  /-- Message "Enum is empty." -/
  | emptyEnum
  /-- Message "Enum values must be of hashable type." -/
  | unhashable
  /-- Message "Found values of different kinds in enum: %v and %v." -/
  | differentKinds (valueType : Option GoType) (t : Option GoType)
  /-- Message "Found repeated value on enum: %v." -/
  | repeated (value : Value)
  /-- Message "Invalid type: %v. Should be %v%s.", the last argument being the clause
  " or convertible to it" when the flag is set. -/
  | invalidType (t : Option GoType) (valueType : Option GoType) (convertValues : Bool)
  /-- The runtime error of a method call on a nil `reflect.Type`. -/
  | nilDereference
  /-- Message "reflect: nil type passed to Type.ConvertibleTo" of the reflect package. -/
  | nilTypeArgument
  /-- Message "targetFunc should be a Ptr to a %v function. Received %v - %s%s", the last
  argument being the clause on convertible types, which names the value type, when the
  Enum is in convert mode. -/
  | shape (expectedFuncType : GoType) (ptrType : GoType) (details : Details)
      (convertValuesClause : Option GoType)
  /-- Message "reflect: call of reflect.Value.Type on zero Value" of the reflect package. -/
  | zeroValue
  /-- Message of the reflect package for a call with too few or too many arguments. -/
  | callArity
  /-- Message "reflect: CallSlice of non-variadic function" of the reflect package. -/
  | callSliceNonVariadic
  /-- The runtime error of an index out of range. -/
  | indexOutOfRange
deriving DecidableEq

/-! ## The Enum and its constructors -/

/-- The struct `Enum`. -/
structure Enum where
  enumList : enumListMap
  valueType : Option GoType
  convertValues : Bool
deriving DecidableEq

/-- The boolean `true` as an interface value, stored against every key. -/
def goTrue : Value := .mk (.basic .bool) (.bool true)

/-- The function `isHashable`: the kind is one of the seventeen listed. -/
def isHashable (t : GoType) : Bool :=
  let kind := t.Kind
  [Kind.Bool, Kind.Int, Kind.Int8, Kind.Int16, Kind.Int32, Kind.Int64,
   Kind.Uint, Kind.Uint8, Kind.Uint16, Kind.Uint32, Kind.Uint64, Kind.Uintptr,
   Kind.Float32, Kind.Float64, Kind.Complex64, Kind.Complex128, Kind.String].any
    (fun k => kind == k)

/-- The body of the loop of `New`, for one value. -/
def New.step (e : Enum) (value : Value) : Except Panic Enum := do
  let t := TypeOf value
  let e ←
    if e.valueType = none then
      match t with
      | none => throw Panic.nilDereference
      | some ty =>
        if !isHashable ty then throw Panic.unhashable
        else pure { e with valueType := some ty }
    else if t ≠ e.valueType then throw (Panic.differentKinds e.valueType t)
    else pure e
  if e.enumList.found value then throw (Panic.repeated value)
  pure { e with enumList := e.enumList.set value goTrue }

/-- The loop of `New` over the values, left to right. -/
def New.loop (e : Enum) : List Value → Except Panic Enum
  | [] => pure e
  | value :: rest => do
    let e ← New.step e value
    New.loop e rest

/-- The constructor `New`. -/
def New (values : List Value) : Except Panic Enum :=
  let e : Enum := { enumList := [], valueType := none, convertValues := false }
  if values.length = 0 then throw Panic.emptyEnum
  else New.loop e values

/-- The constructor `NewConvert`. -/
def NewConvert (values : List Value) : Except Panic Enum := do
  let e ← New values
  pure { e with convertValues := true }

/-! ## The queries -/

/-- The two operations of Go's `reflect` package the queries call: `t.ConvertibleTo(u)`
on two non-nil types, and `reflect.ValueOf(v).Convert(u).Interface()`. -/
structure Reflect where
  convertibleTo : GoType → GoType → Bool
  convert : Value → GoType → Value

/-- The call `t.ConvertibleTo(u)` on possibly-nil types: a nil receiver is a method call
on a nil interface, and the package rejects a nil argument. -/
def Reflect.ConvertibleTo (R : Reflect) : Option GoType → Option GoType → Except Panic Bool
  | none, _ => throw Panic.nilDereference
  | some _, none => throw Panic.nilTypeArgument
  | some t, some u => pure (R.convertibleTo t u)

/-- The call `reflect.ValueOf(value).Convert(u).Interface()`. It is only reached with a
non-nil value and a non-nil type. -/
def Reflect.Convert (R : Reflect) : Value → Option GoType → Except Panic Value
  | .mk t d, some u => pure (R.convert (.mk t d) u)
  | _, _ => throw Panic.nilDereference

/-- The method `isSupportedValueType`; `||` and `&&` evaluate their right operand only
when the left one does not decide. -/
def Enum.isSupportedValueType (R : Reflect) (e : Enum) (t : Option GoType) :
    Except Panic Bool :=
  if t = e.valueType then pure true
  else if e.convertValues then R.ConvertibleTo t e.valueType
  else pure false

/-- The method `supportedValueTypeOrPanic`. -/
def Enum.supportedValueTypeOrPanic (R : Reflect) (e : Enum) (value : Value) :
    Except Panic Unit := do
  let t := TypeOf value
  if !(← e.isSupportedValueType R t) then
    throw (Panic.invalidType t e.valueType e.convertValues)

/-- The method `IsValid`. -/
def Enum.IsValid (R : Reflect) (e : Enum) (value : Value) : Except Panic Bool := do
  e.supportedValueTypeOrPanic R value
  let value ←
    if e.convertValues && TypeOf value != e.valueType then R.Convert value e.valueType
    else pure value
  if !e.enumList.found value then
    return false
  return true

/-- The method `IsAnyValid`. -/
def Enum.IsAnyValid (R : Reflect) (e : Enum) : List Value → Except Panic Bool
  | [] => pure false
  | value :: values => do
    if (← e.IsValid R value) then
      return true
    e.IsAnyValid R values

/-- The method `AreAllValid`. -/
def Enum.AreAllValid (R : Reflect) (e : Enum) : List Value → Except Panic Bool
  | [] => pure true
  | value :: values => do
    if !(← e.IsValid R value) then
      return false
    e.AreAllValid R values

/-! ## The typed methods -/

/-- The three methods `setTypedMethod` is called with, as `reflect.ValueOf(e.IsValid)`,
`reflect.ValueOf(e.IsAnyValid)` and `reflect.ValueOf(e.AreAllValid)`. -/
inductive Method where
  | IsValid | IsAnyValid | AreAllValid
deriving DecidableEq

/-- The call `method.Type().IsVariadic()`: `IsValid` takes one `interface{}`, the two
others take `...interface{}`. -/
def Method.IsVariadic : Method → Bool
  | .IsValid => false
  | .IsAnyValid => true
  | .AreAllValid => true

/-- A `reflect.Value` that `reflect.MakeFunc` hands to the wrapped function, one for each
declared parameter: what `Interface()` returns and, when its kind is `Slice` (as is the
final parameter of a variadic function type, which holds the variadic arguments), what
`Index(i).Interface()` returns for each `i` below `Len()`. -/
structure RValue where
  Interface : Value
  elems : List Value
deriving DecidableEq

/-- The method `reflect.Value.Len` of a slice. -/
def RValue.Len (v : RValue) : Nat := v.elems.length

/-- The call `v.Index(i).Interface()` on a slice, which panics out of range. -/
def RValue.Index (v : RValue) (i : Nat) : Except Panic Value :=
  match v.elems[i]? with
  | some x => .ok x
  | none => .error .indexOutOfRange

/-- A boolean as an interface value. -/
def goBool (b : Bool) : Value := .mk (.basic .bool) (.bool b)

/-- The call `method.Call(args)`: the method is called on the interface values of the
arguments, and `reflect` panics when a non-variadic method is not given exactly its one
argument. -/
def Method.Call (R : Reflect) (e : Enum) (method : Method) (args : List RValue) :
    Except Panic (List Value) :=
  match method with
  | .IsValid =>
    match args with
    | [value] => (e.IsValid R value.Interface).map (fun b => [goBool b])
    | _ => .error .callArity
  | .IsAnyValid => (e.IsAnyValid R (args.map RValue.Interface)).map (fun b => [goBool b])
  | .AreAllValid => (e.AreAllValid R (args.map RValue.Interface)).map (fun b => [goBool b])

/-- The statements `args[0] = reflect.ValueOf(a); method.CallSlice(args)`: the variadic
method is called on the elements of `a`; `rest` is `args[1:]`, and `reflect` panics when
it is not empty or when the method is not variadic. -/
def Method.CallSlice (R : Reflect) (e : Enum) (method : Method) (a : List Value)
    (rest : List RValue) : Except Panic (List Value) :=
  match method with
  | .IsValid => .error .callSliceNonVariadic
  | .IsAnyValid =>
    match rest with
    | [] => (e.IsAnyValid R a).map (fun b => [goBool b])
    | _ => .error .callArity
  | .AreAllValid =>
    match rest with
    | [] => (e.AreAllValid R a).map (fun b => [goBool b])
    | _ => .error .callArity

/-- The loop `for i := 0; i < args[0].Len(); i++ { a = append(a, ...) }` of the wrapped
function, from index `i` with `a` collected so far; the first argument bounds the number
of iterations, which is at most `Len()`. -/
def collectLoop (args0 : RValue) : Nat → Nat → List Value → Except Panic (List Value)
  | 0, _, a => .ok a
  | n + 1, i, a =>
    if i < args0.Len then
      match args0.Index i with
      | .error p => .error p
      | .ok x => collectLoop args0 n (i + 1) (a ++ [x])
    else .ok a

/-- The slice `a` the wrapped function builds from `args[0]`. -/
def collect (args0 : RValue) : Except Panic (List Value) :=
  collectLoop args0 args0.Len 0 []

/-- The function `setTypedMethod` wraps with `reflect.MakeFunc`, closed over `method`
(bound to the Enum) and `variadic`. -/
def Enum.typedMethod (R : Reflect) (e : Enum) (method : Method) (args : List RValue) :
    Except Panic (List Value) :=
  let variadic := method.IsVariadic
  if !variadic then method.Call R e args
  else
    match args with
    | [] => .error .indexOutOfRange
    | args0 :: rest =>
      match collect args0 with
      | .error p => .error p
      | .ok a => method.CallSlice R e a rest

/-- A function value: the nil function, or the function `reflect.MakeFunc` makes in
`setTypedMethod`, of type `typ`, wrapping `typedMethod` for an Enum and a method. -/
inductive FuncVal where
  | nilFunc
  | made (typ : GoType) (e : Enum) (method : Method)
deriving DecidableEq

/-- A call of a function value with the arguments `reflect.MakeFunc` hands over. -/
def FuncVal.call (R : Reflect) : FuncVal → List RValue → Except Panic (List Value)
  | .nilFunc, _ => .error .nilDereference
  | .made _ e method, args => e.typedMethod R method args

/-- The function variables of the caller, by address. -/
abbrev Memory := Nat → FuncVal

/-- The store of a function value at an address. -/
def Memory.set (mem : Memory) (a : Nat) (f : FuncVal) : Memory :=
  fun b => if b = a then f else mem b

/-- The address a pointer value holds, 0 being the nil pointer. -/
def Value.addr : Value → Nat
  | .mk _ (.ref a) => a
  | _ => 0

/-- The type `reflect.TypeOf(true)`. -/
def boolType : GoType := .basic .bool

/-- The condition of the third `if` of `supportedFunctionTypeOrPanic`, on the type `t` of
the target function; `||` and `&&` evaluate their right operand only when the left one
does not decide. -/
def Enum.wrongInArgs (R : Reflect) (e : Enum) (t : GoType) (variadic : Bool) :
    Except Panic Bool :=
  if t.NumIn ≠ 1 then .ok true
  else if !variadic then (e.isSupportedValueType R (t.In 0)).map (fun b => !b)
  else if (t.In 0).map GoType.Kind ≠ some Kind.Slice then .ok true
  else (e.isSupportedValueType R ((t.In 0).bind GoType.Elem)).map (fun b => !b)

/-- The method `supportedFunctionTypeOrPanic`, `targetFunc` being the interface value
`reflect.ValueOf` was applied to. With a nil value type `reflect.SliceOf` and
`reflect.FuncOf` raise a runtime error; the type of the zero `reflect.Value`, which
`reflect.ValueOf(nil)` and the `Elem()` of a nil pointer are, cannot be taken. -/
def Enum.supportedFunctionTypeOrPanic (R : Reflect) (e : Enum) (targetFunc : Value)
    (variadic : Bool) : Except Panic Unit :=
  match e.valueType with
  | none => .error .nilDereference
  | some valueType =>
    let inType := if variadic then SliceOf valueType else valueType
    let expectedFuncType := FuncOf [inType] [boolType] variadic
    let convertValuesClause := if e.convertValues then some valueType else none
    match TypeOf targetFunc with
    | none => .error .zeroValue
    | some ptrType =>
      let panicWithDetails := fun details =>
        Panic.shape expectedFuncType ptrType details convertValuesClause
      if ptrType.Kind ≠ Kind.Ptr then .error (panicWithDetails .notPointer)
      else if targetFunc.addr = 0 then .error .zeroValue
      else
        match ptrType.Elem with
        | none => .error .zeroValue
        | some t =>
          if t.Kind ≠ Kind.Func then .error (panicWithDetails .notFunction)
          else
            match e.wrongInArgs R t variadic with
            | .error p => .error p
            | .ok true => .error (panicWithDetails .checkIn)
            | .ok false =>
              if t.NumOut ≠ 1 ∨ t.Out 0 ≠ expectedFuncType.Out 0 then
                .error (panicWithDetails .checkOut)
              else .ok ()

/-- The method `setTypedMethod`: the panic it raises, if any, and the function variables
after it. The only assignment is `v.Elem().Set(...)`, of the function made for the type
of the variable, after the check. -/
def Enum.setTypedMethod (R : Reflect) (e : Enum) (targetFunc : Value) (method : Method)
    (mem : Memory) : Except Panic Unit × Memory :=
  let variadic := method.IsVariadic
  match e.supportedFunctionTypeOrPanic R targetFunc variadic with
  | .error p => (.error p, mem)
  | .ok _ =>
    match (TypeOf targetFunc).bind GoType.Elem with
    | none => (.error .zeroValue, mem)
    | some typ => (.ok (), mem.set targetFunc.addr (.made typ e method))

/-- The method `SetTypedIsValid`. -/
def Enum.SetTypedIsValid (R : Reflect) (e : Enum) (targetFunc : Value) (mem : Memory) :
    Except Panic Unit × Memory :=
  e.setTypedMethod R targetFunc .IsValid mem

/-- The method `SetTypedIsAnyValid`. -/
def Enum.SetTypedIsAnyValid (R : Reflect) (e : Enum) (targetFunc : Value) (mem : Memory) :
    Except Panic Unit × Memory :=
  e.setTypedMethod R targetFunc .IsAnyValid mem

/-- The method `SetTypedAreAllValid`. -/
def Enum.SetTypedAreAllValid (R : Reflect) (e : Enum) (targetFunc : Value) (mem : Memory) :
    Except Panic Unit × Memory :=
  e.setTypedMethod R targetFunc .AreAllValid mem

/-! ## Examples of values and of conversions -/

/-- An `int` value. -/
def goInt (i : Int) : Value := .mk (.basic .int) (.int i)

/-- A `float64` value from its bit pattern. -/
def goFloat64 (bits : Nat) : Value := .mk (.basic .float64) (.float64 bits)

/-- A `string` value from its bytes. -/
def goString (bytes : List Nat) : Value := .mk (.basic .string) (.str bytes)

/-- The bit pattern of a quiet `float64` NaN, the value of `math.NaN()`. -/
def nanBits : Nat := 0x7FF8000000000001

/-- The bit pattern of the `float64` number 1.0. -/
def oneBits : Nat := 0x3FF0000000000000

/-- Whether a kind is one of the signed integer kinds. -/
def isIntKind (k : Kind) : Bool :=
  [Kind.Int, Kind.Int8, Kind.Int16, Kind.Int32, Kind.Int64].any (fun j => k == j)

/-- The width in bits of a signed integer kind, `int` being 64 bits wide. -/
def intWidth : Kind → Nat
  | .Int8 => 8 | .Int16 => 16 | .Int32 => 32 | _ => 64

/-- The integer a `float64` bit pattern truncates to (towards zero), for a finite number;
0 is returned for an infinity or a NaN. -/
def truncFloat64 (bits : Nat) : Int :=
  let x := (bits / 2 ^ 52) % 2 ^ 11
  let m := bits % 2 ^ 52
  let mag : Nat :=
    if x = 0 ∨ x = 2047 then 0
    else if 1075 ≤ x then (2 ^ 52 + m) * 2 ^ (x - 1075)
    else (2 ^ 52 + m) / 2 ^ (1075 - x)
  if bits / 2 ^ 63 % 2 = 1 then - (mag : Int) else (mag : Int)

/-- An instance of `Reflect` for the conversions used by the tests of the package, from
`float64` to a signed integer type and between signed integer types: the number is
truncated towards zero and wrapped to the width of the target (Go leaves the result of
a number outside the range of `int64` to the implementation). Any other pair of distinct
types is treated as not convertible. -/
def numericReflect : Reflect where
  convertibleTo t u :=
    t == u || ((t.Kind == Kind.Float64 || isIntKind t.Kind) && isIntKind u.Kind)
  convert v u :=
    match v with
    | .mk _ (.float64 bits) =>
      if isIntKind u.Kind then
        .mk u (.int ((truncFloat64 bits + 2 ^ (intWidth u.Kind - 1)) % 2 ^ intWidth u.Kind
          - 2 ^ (intWidth u.Kind - 1)))
      else v
    | .mk _ (.int i) =>
      if isIntKind u.Kind then
        .mk u (.int ((i + 2 ^ (intWidth u.Kind - 1)) % 2 ^ intWidth u.Kind
          - 2 ^ (intWidth u.Kind - 1)))
      else v
    | _ => v

/-- The entries `New` stores for a list of values: each value mapped to `true`. -/
def entries (vs : List Value) : enumListMap :=
  vs.map (fun v => (v, goTrue))

/-- No value of the list is `==` to a later one. -/
def NoRepeat (vs : List Value) : Prop :=
  vs.Pairwise (fun a b => ifaceEq a b = false)

/-- The Enum `enums.New(1, 2, 3)` of the tests. -/
def enum123 : Enum := ⟨entries [goInt 1, goInt 2, goInt 3], some (.basic .int), false⟩

/-- The function variables of a caller that has assigned none. -/
def noFuncs : Memory := fun _ => .nilFunc

/-- The pointer `&f` to a variable of type `t` at address `a`. -/
def ptrTo (t : GoType) (a : Nat) : Value := .mk (.ptr t) (.ref a)

/-- The argument `reflect.MakeFunc` hands over for a parameter that is not a slice. -/
def scalarArg (v : Value) : RValue := ⟨v, []⟩

/-- The argument `reflect.MakeFunc` hands over for the variadic arguments `vs` of a
function whose final parameter has the slice type `t`: a slice, at address `a`, with
these elements. -/
def variadicArgs (t : GoType) (a : Nat) (vs : List Value) : RValue := ⟨.mk t (.ref a), vs⟩

/-- The Enum `enums.NewConvert(1, 2, 3)` of the tests. -/
def enumConvert123 : Enum :=
  ⟨entries [goInt 1, goInt 2, goInt 3], some (.basic .int), true⟩

/-- The Enum `enums.NewConvert("a", "b")`. -/
def enumConvertAB : Enum :=
  ⟨entries [goString [97], goString [98]], some (.basic .string), true⟩

/-- An instance of `Reflect` for the conversion of a byte slice to a string type, which
`reflect` allows for a slice whose element type is the predeclared `uint8`: the string
has the bytes of the slice, the data of a byte slice being given here by its bytes. Any
other pair of distinct types is treated as not convertible. -/
def bytesReflect : Reflect where
  convertibleTo t u :=
    t == u || (t.underlying == GoType.slice (.basic .uint8) && u.Kind == Kind.String)
  convert v u :=
    match v with
    | .mk _ (.str bytes) => .mk u (.str bytes)
    | _ => v

instance (vs : List Value) : Decidable (NoRepeat vs) := by
  unfold NoRepeat
  infer_instance

/-! ## The map -/

theorem found_nil (key : Value) : enumListMap.found [] key = false := rfl

theorem found_append_entry (m : enumListMap) (k v key : Value) :
    enumListMap.found (m ++ [(k, v)]) key = (m.found key || ifaceEq k key) := by
  simp [enumListMap.found, List.any_append]

theorem found_eq_any_keys (m : enumListMap) (key : Value) :
    m.found key = m.keys.any (fun k => ifaceEq k key) := by
  induction m with
  | nil => rfl
  | cons kv m ih =>
    simp only [enumListMap.found, enumListMap.keys, List.any_cons, List.map_cons] at ih ⊢
    rw [ih]

theorem set_of_not_found (m : enumListMap) (k v : Value) (h : m.found k = false) :
    m.set k v = m ++ [(k, v)] := by
  simp [enumListMap.set, h]

theorem keys_append_entry (m : enumListMap) (k v : Value) :
    enumListMap.keys (m ++ [(k, v)]) = m.keys ++ [k] := by
  simp [enumListMap.keys]

/-! ## One iteration of `New` -/

theorem step_first (m : enumListMap) (c : Bool) (t : GoType) (d : Data)
    (ht : isHashable t = true) :
    New.step ⟨m, none, c⟩ (.mk t d) =
      if m.found (.mk t d) then .error (.repeated (.mk t d))
      else .ok ⟨m.set (.mk t d) goTrue, some t, c⟩ := by
  simp only [New.step, TypeOf, ht, bind, Except.bind, pure, Except.pure, throw, throwThe,
    MonadExceptOf.throw]
  split <;> simp_all

theorem step_first_unhashable (m : enumListMap) (c : Bool) (t : GoType) (d : Data)
    (ht : isHashable t = false) :
    New.step ⟨m, none, c⟩ (.mk t d) = .error .unhashable := by
  simp [New.step, TypeOf, ht, bind, Except.bind, pure, Except.pure, throw, throwThe,
    MonadExceptOf.throw]

theorem step_first_nil (m : enumListMap) (c : Bool) :
    New.step ⟨m, none, c⟩ .nil = .error .nilDereference := rfl

theorem step_later (m : enumListMap) (c : Bool) (T : GoType) (v : Value)
    (hv : TypeOf v = some T) :
    New.step ⟨m, some T, c⟩ v =
      if m.found v then .error (.repeated v)
      else .ok ⟨m.set v goTrue, some T, c⟩ := by
  simp only [New.step, hv, bind, Except.bind, pure, Except.pure, throw, throwThe,
    MonadExceptOf.throw]
  split <;> simp_all

theorem step_later_mismatch (m : enumListMap) (c : Bool) (T : GoType) (v : Value)
    (hv : TypeOf v ≠ some T) :
    New.step ⟨m, some T, c⟩ v = .error (.differentKinds (some T) (TypeOf v)) := by
  simp [New.step, hv, bind, Except.bind, pure, Except.pure, throw, throwThe,
    MonadExceptOf.throw]

/-! ## The loop of `New` -/

theorem found_entries (vs : List Value) (key : Value) :
    (entries vs).found key = vs.any (fun k => ifaceEq k key) := by
  induction vs with
  | nil => rfl
  | cons v vs ih =>
    simp only [entries, enumListMap.found, List.map_cons, List.any_cons] at ih ⊢
    rw [ih]

theorem keys_entries (vs : List Value) : (entries vs).keys = vs := by
  induction vs with
  | nil => rfl
  | cons v vs ih =>
    simp only [entries, enumListMap.keys, List.map_cons] at ih ⊢
    rw [ih]

theorem loop_nil (e : Enum) : New.loop e [] = .ok e := rfl

theorem loop_cons (e : Enum) (v : Value) (rest : List Value) :
    New.loop e (v :: rest) =
      match New.step e v with
      | .error p => .error p
      | .ok e1 => New.loop e1 rest := by
  simp only [New.loop, bind, Except.bind]
  cases New.step e v <;> rfl

theorem loop_append (e : Enum) (pre rest : List Value) :
    New.loop e (pre ++ rest) =
      match New.loop e pre with
      | .error p => .error p
      | .ok e1 => New.loop e1 rest := by
  induction pre generalizing e with
  | nil => rfl
  | cons v pre ih =>
    rw [List.cons_append, loop_cons, loop_cons]
    cases New.step e v with
    | error p => rfl
    | ok e1 => exact ih e1

/-- From a state whose value type is set, the loop succeeds on values of that type that
are neither in the map nor repeated, and appends them to the map in order. -/
theorem loop_ok (T : GoType) (c : Bool) (vs : List Value) (m : enumListMap)
    (hT : ∀ v ∈ vs, TypeOf v = some T) (hm : ∀ v ∈ vs, m.found v = false)
    (hr : NoRepeat vs) :
    New.loop ⟨m, some T, c⟩ vs = .ok ⟨m ++ entries vs, some T, c⟩ := by
  induction vs generalizing m with
  | nil => simp [loop_nil, entries]
  | cons v vs ih =>
    have hv : TypeOf v = some T := hT v (List.mem_cons_self _ _)
    have hf : m.found v = false := hm v (List.mem_cons_self _ _)
    rw [loop_cons, step_later m c T v hv, hf, set_of_not_found m v goTrue hf]
    simp only [Bool.false_eq_true, if_false]
    have hr2 := List.pairwise_cons.mp hr
    rw [ih (m ++ [(v, goTrue)]) (fun w hw => hT w (List.mem_cons_of_mem _ hw)) _ hr2.2]
    · simp [entries]
    · intro w hw
      rw [found_append_entry, hm w (List.mem_cons_of_mem _ hw), hr2.1 w hw]
      rfl

/-- Conversely, when the loop succeeds from a state whose value type is set, every value
has that type, none is in the map, and none repeats an earlier one. -/
theorem loop_ok_inv (T : GoType) (c : Bool) (vs : List Value) (m : enumListMap) (e1 : Enum)
    (h : New.loop ⟨m, some T, c⟩ vs = .ok e1) :
    (∀ v ∈ vs, TypeOf v = some T) ∧ (∀ v ∈ vs, m.found v = false) ∧ NoRepeat vs := by
  induction vs generalizing m with
  | nil => simp [NoRepeat]
  | cons v vs ih =>
    rw [loop_cons] at h
    by_cases hv : TypeOf v = some T
    · rw [step_later m c T v hv] at h
      cases hf : m.found v with
      | true => simp [hf] at h
      | false =>
        rw [hf, set_of_not_found m v goTrue hf] at h
        simp only [Bool.false_eq_true, if_false] at h
        obtain ⟨h1, h2, h3⟩ := ih (m ++ [(v, goTrue)]) h
        have h2b : ∀ w ∈ vs, m.found w = false ∧ ifaceEq v w = false := by
          intro w hw
          have := h2 w hw
          rw [found_append_entry] at this
          simpa using this
        refine ⟨?_, ?_, ?_⟩
        · intro w hw
          rcases List.mem_cons.mp hw with rfl | hw
          · exact hv
          · exact h1 w hw
        · intro w hw
          rcases List.mem_cons.mp hw with rfl | hw
          · exact hf
          · exact (h2b w hw).1
        · exact List.pairwise_cons.mpr ⟨fun w hw => (h2b w hw).2, h3⟩
    · rw [step_later_mismatch m c T v hv] at h
      simp at h

/-! ## The constructor `New` -/

theorem New_nil : New [] = .error .emptyEnum := rfl

theorem New_cons (v : Value) (rest : List Value) :
    New (v :: rest) = New.loop ⟨[], none, false⟩ (v :: rest) := by
  simp [New]

/-- After a first value of a hashable type `New` continues from the state that stores
it. -/
theorem New_first (T : GoType) (d : Data) (rest : List Value) (hT : isHashable T = true) :
    New (.mk T d :: rest) = New.loop ⟨entries [.mk T d], some T, false⟩ rest := by
  rw [New_cons, loop_cons, step_first [] false T d hT]
  simp [found_nil, enumListMap.set, enumListMap.found, entries]

/-- After a non-empty run of values of one hashable type without a repeat, `New`
continues from the state that stores exactly that run. -/
theorem New_append (T : GoType) (pre rest : List Value) (hne : pre ≠ [])
    (hT : isHashable T = true) (hty : ∀ v ∈ pre, TypeOf v = some T) (hr : NoRepeat pre) :
    New (pre ++ rest) = New.loop ⟨entries pre, some T, false⟩ rest := by
  cases pre with
  | nil => exact absurd rfl hne
  | cons p0 pre =>
    cases p0 with
    | nil => simpa [TypeOf] using hty .nil (List.mem_cons_self _ _)
    | mk t d =>
      have ht : t = T := by simpa [TypeOf] using hty (.mk t d) (List.mem_cons_self _ _)
      subst ht
      have hr2 := List.pairwise_cons.mp hr
      rw [List.cons_append, New_first t d _ hT, loop_append,
        loop_ok t false pre (entries [.mk t d])
          (fun w hw => hty w (List.mem_cons_of_mem _ hw)) _ hr2.2]
      · simp [entries]
      · intro w hw
        rw [found_entries]
        simpa using hr2.1 w hw

/-- On a non-empty list of values of one hashable type without a repeat, `New` returns
the Enum that stores exactly these values, in strict mode. -/
theorem New_ok (T : GoType) (vs : List Value) (hne : vs ≠ [])
    (hT : isHashable T = true) (hty : ∀ v ∈ vs, TypeOf v = some T) (hr : NoRepeat vs) :
    New vs = .ok ⟨entries vs, some T, false⟩ := by
  have := New_append T vs [] hne hT hty hr
  simpa [loop_nil] using this

/-- When `New` succeeds, the list is non-empty, its values have one hashable type, none
repeats an earlier one, and the Enum stores exactly these values. -/
theorem New_ok_inv (vs : List Value) (e : Enum) (h : New vs = .ok e) :
    vs ≠ [] ∧ ∃ T, vs.head?.bind TypeOf = some T ∧ isHashable T = true ∧
      (∀ v ∈ vs, TypeOf v = some T) ∧ NoRepeat vs ∧ e = ⟨entries vs, some T, false⟩ := by
  cases vs with
  | nil => simp [New_nil] at h
  | cons v rest =>
    refine ⟨by simp, ?_⟩
    cases v with
    | nil =>
      rw [New_cons, loop_cons, step_first_nil] at h
      simp at h
    | mk t d =>
      cases ht : isHashable t with
      | false =>
        rw [New_cons, loop_cons, step_first_unhashable [] false t d ht] at h
        simp at h
      | true =>
        rw [New_first t d rest ht] at h
        obtain ⟨h1, h2, h3⟩ := loop_ok_inv t false rest _ e h
        have hty : ∀ w ∈ Value.mk t d :: rest, TypeOf w = some t := by
          intro w hw
          rcases List.mem_cons.mp hw with rfl | hw
          · rfl
          · exact h1 w hw
        have hr : NoRepeat (Value.mk t d :: rest) := by
          refine List.pairwise_cons.mpr ⟨?_, h3⟩
          intro w hw
          have := h2 w hw
          rw [found_entries] at this
          simpa using this
        refine ⟨t, rfl, ht, hty, hr, ?_⟩
        have := New_ok t (Value.mk t d :: rest) (by simp) ht hty hr
        rw [New_first t d rest ht] at this
        rw [this] at h
        exact (Except.ok.inj h).symm

/-- Any list either has no repeat, or splits at the first value that is `==` to an
earlier one. -/
theorem noRepeat_or_first_repeat (vs : List Value) :
    NoRepeat vs ∨ ∃ pre v post, vs = pre ++ v :: post ∧ NoRepeat pre ∧
      ∃ u ∈ pre, ifaceEq u v = true := by
  induction vs using List.reverseRecOn with
  | nil => exact Or.inl List.Pairwise.nil
  | append_singleton l a ih =>
    rcases ih with hl | ⟨pre, v, post, rfl, hpre, hu⟩
    · by_cases ha : ∃ u ∈ l, ifaceEq u a = true
      · exact Or.inr ⟨l, a, [], rfl, hl, ha⟩
      · left
        refine List.pairwise_append.mpr ⟨hl, List.pairwise_singleton _ _, ?_⟩
        intro u hu b hb
        rw [List.mem_singleton] at hb
        subst hb
        cases h : ifaceEq u b with
        | false => rfl
        | true => exact absurd ⟨u, hu, h⟩ ha
    · exact Or.inr ⟨pre, v, post ++ [a], by simp, hpre, hu⟩

/-! ## The query `IsValid` -/

/-- A candidate whose type is the Enum's value type is looked up as it is. -/
theorem IsValid_same_type (R : Reflect) (e : Enum) (v : Value)
    (hv : TypeOf v = e.valueType) : e.IsValid R v = .ok (e.enumList.found v) := by
  simp only [Enum.IsValid, Enum.supportedValueTypeOrPanic, Enum.isSupportedValueType, hv,
    bind, Except.bind, pure, Except.pure]
  cases e.enumList.found v <;> simp

/-- In strict mode a candidate of another type is rejected with the type-mismatch
panic. -/
theorem IsValid_strict_mismatch (R : Reflect) (e : Enum) (v : Value)
    (hc : e.convertValues = false) (hv : TypeOf v ≠ e.valueType) :
    e.IsValid R v = .error (.invalidType (TypeOf v) e.valueType false) := by
  simp [Enum.IsValid, Enum.supportedValueTypeOrPanic, Enum.isSupportedValueType, hv, hc,
    bind, Except.bind, pure, Except.pure, throw, throwThe, MonadExceptOf.throw]

/-- In convert mode a candidate of another, convertible type is converted and then
looked up. -/
theorem IsValid_convert (R : Reflect) (e : Enum) (v : Value) (t T : GoType)
    (hc : e.convertValues = true) (hT : e.valueType = some T) (hv : TypeOf v = some t)
    (hne : t ≠ T) (hconv : R.convertibleTo t T = true) :
    e.IsValid R v = .ok (e.enumList.found (R.convert v T)) := by
  cases v with
  | nil => simp [TypeOf] at hv
  | mk t1 d =>
    have ht : t1 = t := by simpa [TypeOf] using hv
    subst ht
    simp only [Enum.IsValid, Enum.supportedValueTypeOrPanic, Enum.isSupportedValueType, hc, hT,
      TypeOf, Reflect.ConvertibleTo, Reflect.Convert, hconv,
      bind, Except.bind, pure, Except.pure]
    cases e.enumList.found (R.convert (.mk t1 d) T) <;> simp [hne]

/-- In convert mode a candidate of another type that is not convertible is rejected with
the type-mismatch panic. -/
theorem IsValid_convert_mismatch (R : Reflect) (e : Enum) (v : Value) (t T : GoType)
    (hc : e.convertValues = true) (hT : e.valueType = some T) (hv : TypeOf v = some t)
    (hne : t ≠ T) (hconv : R.convertibleTo t T = false) :
    e.IsValid R v = .error (.invalidType (some t) (some T) true) := by
  simp [Enum.IsValid, Enum.supportedValueTypeOrPanic, Enum.isSupportedValueType, hc, hT, hv,
    Reflect.ConvertibleTo, hconv, hne,
    bind, Except.bind, pure, Except.pure, throw, throwThe, MonadExceptOf.throw]

/-- In convert mode a nil candidate raises the runtime error of the method call
`t.ConvertibleTo` on the nil type, before any message is formatted. -/
theorem IsValid_convert_nil (R : Reflect) (e : Enum) (T : GoType)
    (hc : e.convertValues = true) (hT : e.valueType = some T) :
    e.IsValid R .nil = .error .nilDereference := by
  simp [Enum.IsValid, Enum.supportedValueTypeOrPanic, Enum.isSupportedValueType, hc, hT,
    TypeOf, Reflect.ConvertibleTo,
    bind, Except.bind, throw, throwThe, MonadExceptOf.throw]

/-! ## Construction: the claims -/

/-- C1 (as amended): on a non-empty list of values of one hashable type, no two of them
`==`, `New` succeeds; on the Enum it returns `IsValid` is true for every listed value
that is `==` to itself (every value but a NaN), and false for every value of that type
that is `==` to no listed value. -/
theorem New_IsValid_membership (R : Reflect) (T : GoType) (vs : List Value)
    (hne : vs ≠ []) (hT : isHashable T = true) (hty : ∀ v ∈ vs, TypeOf v = some T)
    (hr : NoRepeat vs) :
    ∃ e, New vs = .ok e ∧
      (∀ v ∈ vs, ifaceEq v v = true → e.IsValid R v = .ok true) ∧
      (∀ v, TypeOf v = some T → (∀ u ∈ vs, ifaceEq u v = false) →
        e.IsValid R v = .ok false) := by
  refine ⟨⟨entries vs, some T, false⟩, New_ok T vs hne hT hty hr, ?_, ?_⟩
  · intro v hv hself
    rw [IsValid_same_type R _ v (hty v hv), found_entries]
    exact congrArg Except.ok (List.any_eq_true.mpr ⟨v, hv, hself⟩)
  · intro v hv hnot
    rw [IsValid_same_type R _ v hv, found_entries]
    refine congrArg Except.ok ?_
    cases h : vs.any (fun k => ifaceEq k v) with
    | false => rfl
    | true =>
      obtain ⟨u, hu, hu2⟩ := List.any_eq_true.mp h
      rw [hnot u hu] at hu2
      exact absurd hu2 (by decide)

/-- C1, witness: the Enum of 1, 2, 3. -/
theorem New_IsValid_membership_witness :
    [goInt 1, goInt 2, goInt 3] ≠ [] ∧ isHashable (.basic .int) = true ∧
    ∃ e, New [goInt 1, goInt 2, goInt 3] = .ok e ∧
      (∀ v ∈ [goInt 1, goInt 2, goInt 3], ifaceEq v v = true →
        e.IsValid numericReflect v = .ok true) ∧
      (∀ v, TypeOf v = some (.basic .int) →
        (∀ u ∈ [goInt 1, goInt 2, goInt 3], ifaceEq u v = false) →
        e.IsValid numericReflect v = .ok false) :=
  ⟨by decide, by decide,
    New_IsValid_membership numericReflect (.basic .int) [goInt 1, goInt 2, goInt 3]
      (by decide) (by decide) (by decide) (by decide)⟩

/-- C1, counterexample: the one-element list holding a `float64` NaN meets every
condition of the claim and `New` succeeds on it, yet `IsValid` is false for its only
element, because a NaN is not `==` to itself and the map lookup never finds it. -/
theorem New_IsValid_NaN_member :
    [goFloat64 nanBits] ≠ [] ∧ isHashable (.basic .float64) = true ∧
    (∀ v ∈ [goFloat64 nanBits], TypeOf v = some (.basic .float64)) ∧
    NoRepeat [goFloat64 nanBits] ∧
    ∃ e, New [goFloat64 nanBits] = .ok e ∧
      ¬ (∀ v ∈ [goFloat64 nanBits], e.IsValid numericReflect v = .ok true) := by
  refine ⟨by decide, by decide, by decide, by decide,
    ⟨entries [goFloat64 nanBits], some (.basic .float64), false⟩, by decide, ?_⟩
  intro h
  exact absurd (h (goFloat64 nanBits) (List.mem_singleton.mpr rfl)) (by decide)

/-- C2: `New` returns an Enum exactly when the list is non-empty, the type of its first
value is hashable, every value has that type, and no two values are `==`; otherwise it
panics, and on the empty list with the message "Enum is empty.". -/
theorem New_succeeds_iff (vs : List Value) :
    ((∃ e, New vs = .ok e) ↔
      vs ≠ [] ∧ ∃ T, vs.head?.bind TypeOf = some T ∧ isHashable T = true ∧
        (∀ v ∈ vs, TypeOf v = some T) ∧ NoRepeat vs) ∧
    ((¬ ∃ e, New vs = .ok e) → ∃ p, New vs = .error p) ∧
    New [] = .error .emptyEnum := by
  refine ⟨⟨?_, ?_⟩, ?_, New_nil⟩
  · rintro ⟨e, he⟩
    obtain ⟨h1, T, h2, h3, h4, h5, _⟩ := New_ok_inv vs e he
    exact ⟨h1, T, h2, h3, h4, h5⟩
  · rintro ⟨h1, T, _, h3, h4, h5⟩
    exact ⟨_, New_ok T vs h1 h3 h4 h5⟩
  · intro h
    cases hn : New vs with
    | error p => exact ⟨p, rfl⟩
    | ok e => exact absurd ⟨e, hn⟩ h

/-- C3: on values of one hashable type among which two positions hold `==` values, `New`
panics with the repeated-value message, and the value it names is the one at the first
position that is `==` to an earlier element: the values before it have no repeat. -/
theorem New_repeated_value (T : GoType) (vs : List Value) (hT : isHashable T = true)
    (hty : ∀ v ∈ vs, TypeOf v = some T)
    (hdup : ∃ i j : Nat, ∃ a b : Value,
      i < j ∧ vs[i]? = some a ∧ vs[j]? = some b ∧ ifaceEq a b = true) :
    ∃ pre v post, vs = pre ++ v :: post ∧ NoRepeat pre ∧
      (∃ u ∈ pre, ifaceEq u v = true) ∧ New vs = .error (.repeated v) := by
  rcases noRepeat_or_first_repeat vs with hno | ⟨pre, v, post, rfl, hpre, u, hu, huv⟩
  · exfalso
    obtain ⟨i, j, a, b, hij, ha, hb, hab⟩ := hdup
    obtain ⟨hi, rfl⟩ := List.getElem?_eq_some.mp ha
    obtain ⟨hj, rfl⟩ := List.getElem?_eq_some.mp hb
    have := List.pairwise_iff_getElem.mp hno i j hi hj hij
    rw [this] at hab
    exact absurd hab (by decide)
  · refine ⟨pre, v, post, rfl, hpre, ⟨u, hu, huv⟩, ?_⟩
    have hne : pre ≠ [] := List.ne_nil_of_mem hu
    rw [New_append T pre (v :: post) hne hT
      (fun w hw => hty w (List.mem_append_left _ hw)) hpre, loop_cons,
      step_later _ false T v (hty v (by simp))]
    have hf : (entries pre).found v = true := by
      rw [found_entries]
      exact List.any_eq_true.mpr ⟨u, hu, huv⟩
    simp [hf]

/-- C3, witness: `New(1, 1)`. -/
theorem New_repeated_value_witness :
    ∃ pre v post, [goInt 1, goInt 1] = pre ++ v :: post ∧ NoRepeat pre ∧
      (∃ u ∈ pre, ifaceEq u v = true) ∧ New [goInt 1, goInt 1] = .error (.repeated v) :=
  New_repeated_value (.basic .int) [goInt 1, goInt 1] (by decide) (by decide)
    ⟨0, 1, goInt 1, goInt 1, by decide, by decide, by decide, by decide⟩

/-- C4: when the values before some position are a non-empty run of one hashable type
without a repeat and the value at that position has another type (or is nil), `New`
panics with the different-kinds message, which names the type of the first value and
the type of that value. -/
theorem New_different_type (T : GoType) (pre : List Value) (w : Value) (post : List Value)
    (hne : pre ≠ []) (hT : isHashable T = true) (hty : ∀ v ∈ pre, TypeOf v = some T)
    (hw : TypeOf w ≠ some T) (hr : NoRepeat pre) :
    (pre ++ w :: post).head?.bind TypeOf = some T ∧
    New (pre ++ w :: post) = .error (.differentKinds (some T) (TypeOf w)) := by
  constructor
  · cases pre with
    | nil => exact absurd rfl hne
    | cons p0 pre => simpa using hty p0 (List.mem_cons_self _ _)
  · rw [New_append T pre (w :: post) hne hT hty hr, loop_cons,
      step_later_mismatch _ false T w hw]

/-- C4, witness: `New(1, "2")`. -/
theorem New_different_type_witness :
    ([goInt 1] ++ goString [50] :: []).head?.bind TypeOf = some (.basic .int) ∧
    New ([goInt 1] ++ goString [50] :: []) =
      .error (.differentKinds (some (.basic .int)) (TypeOf (goString [50]))) :=
  New_different_type (.basic .int) [goInt 1] (goString [50]) [] (by decide) (by decide)
    (by decide) (by decide) (by decide)

/-- C5 (as amended): when the kind of the type of the first value is none of bool, the
signed and unsigned integer kinds (uintptr included), the two floating-point kinds, the
two complex kinds and string, `New` panics with the unhashable-type message, whatever
the values after it are. -/
theorem New_unhashable (T : GoType) (v : Value) (rest : List Value)
    (hv : TypeOf v = some T)
    (hk : T.Kind ∉ [Kind.Bool, Kind.Int, Kind.Int8, Kind.Int16, Kind.Int32, Kind.Int64,
      Kind.Uint, Kind.Uint8, Kind.Uint16, Kind.Uint32, Kind.Uint64, Kind.Uintptr,
      Kind.Float32, Kind.Float64, Kind.Complex64, Kind.Complex128, Kind.String]) :
    New (v :: rest) = .error .unhashable := by
  cases v with
  | nil => simp [TypeOf] at hv
  | mk t d =>
    have ht : t = T := by simpa [TypeOf] using hv
    subst ht
    have hh : isHashable t = false := by
      simp only [List.mem_cons, List.mem_singleton, not_or, List.not_mem_nil] at hk
      simp [isHashable, hk]
    rw [New_cons, loop_cons, step_first_unhashable [] false t d hh]

/-- C5, witness: `New([]int{1})`, a slice. -/
theorem New_unhashable_witness :
    New (Value.mk (.slice (.basic .int)) (.ref 0) :: []) = .error .unhashable :=
  New_unhashable (.slice (.basic .int)) (Value.mk (.slice (.basic .int)) (.ref 0)) []
    rfl (by decide)

/-- C5, counterexample: the kind of `complex128` is none of bool, the integer kinds, the
floating-point kinds and string, and yet `New` accepts a `complex128` value: the complex
kinds are in the list of `isHashable`. -/
theorem New_complex_accepted :
    (GoType.basic .complex128).Kind ∉
      [Kind.Bool, Kind.Int, Kind.Int8, Kind.Int16, Kind.Int32, Kind.Int64,
       Kind.Uint, Kind.Uint8, Kind.Uint16, Kind.Uint32, Kind.Uint64, Kind.Uintptr,
       Kind.Float32, Kind.Float64, Kind.String] ∧
    New [Value.mk (.basic .complex128) (.complex128 oneBits 0)] ≠ .error .unhashable ∧
    ∃ e, New [Value.mk (.basic .complex128) (.complex128 oneBits 0)] = .ok e := by
  refine ⟨by decide, by decide, ⟨entries [Value.mk (.basic .complex128)
    (.complex128 oneBits 0)], some (.basic .complex128), false⟩, by decide⟩

/-! ## The constructor `NewConvert` -/

theorem NewConvert_eq (vs : List Value) :
    NewConvert vs =
      match New vs with
      | .error p => .error p
      | .ok e => .ok { e with convertValues := true } := by
  simp only [NewConvert, bind, Except.bind, pure, Except.pure]
  cases New vs <;> rfl

/-- When `NewConvert` succeeds, the Enum stores exactly the values passed, its value
type is their common hashable type, and it is in convert mode. -/
theorem NewConvert_ok_inv (vs : List Value) (e : Enum) (h : NewConvert vs = .ok e) :
    ∃ T, isHashable T = true ∧ (∀ v ∈ vs, TypeOf v = some T) ∧
      e = ⟨entries vs, some T, true⟩ := by
  rw [NewConvert_eq] at h
  cases hn : New vs with
  | error p => simp [hn] at h
  | ok e0 =>
    obtain ⟨_, T, _, h3, h4, _, h6⟩ := New_ok_inv vs e0 hn
    refine ⟨T, h3, h4, ?_⟩
    rw [hn] at h
    have := Except.ok.inj h
    rw [← this, h6]

/-! ## The queries: general facts -/

/-- A candidate whose type the Enum supports is looked up without a panic. -/
theorem IsValid_ok_of_supported (R : Reflect) (e : Enum) (c : Value)
    (hs : e.isSupportedValueType R (TypeOf c) = .ok true) : ∃ b, e.IsValid R c = .ok b := by
  by_cases hty : TypeOf c = e.valueType
  · exact ⟨_, IsValid_same_type R e c hty⟩
  · cases hc : e.convertValues with
    | false =>
      simp [Enum.isSupportedValueType, hty, hc, pure, Except.pure] at hs
    | true =>
      simp only [Enum.isSupportedValueType, hty, hc, if_false, if_true] at hs
      cases ht : TypeOf c with
      | none => simp [ht, Reflect.ConvertibleTo, throw, throwThe, MonadExceptOf.throw] at hs
      | some t =>
        cases hT : e.valueType with
        | none =>
          simp [ht, hT, Reflect.ConvertibleTo, throw, throwThe, MonadExceptOf.throw] at hs
        | some T =>
          have hne : t ≠ T := by
            intro h
            exact hty (by rw [ht, hT, h])
          have hconv : R.convertibleTo t T = true := by
            simpa [ht, hT, Reflect.ConvertibleTo, pure, Except.pure] using hs
          exact ⟨_, IsValid_convert R e c t T hc hT ht hne hconv⟩

/-- For a non-nil candidate and an Enum with a value type, `IsValid` panics with the
type-mismatch message exactly when the candidate's type is not the value type and is
not, in convert mode, convertible to it; otherwise it returns a boolean. -/
theorem IsValid_typed (R : Reflect) (e : Enum) (c : Value) (t T : GoType)
    (hT : e.valueType = some T) (hc : TypeOf c = some t) :
    (e.IsValid R c = .error (.invalidType (some t) (some T) e.convertValues) ↔
      t ≠ T ∧ ¬ (e.convertValues = true ∧ R.convertibleTo t T = true)) ∧
    ((∃ p, e.IsValid R c = .error p) →
      e.IsValid R c = .error (.invalidType (some t) (some T) e.convertValues)) := by
  by_cases hne : t = T
  · subst hne
    rw [IsValid_same_type R e c (by rw [hc, hT])]
    simp
  · cases hcv : e.convertValues with
    | false =>
      have hm := IsValid_strict_mismatch R e c hcv (by rw [hc, hT]; simpa using hne)
      rw [hc, hT] at hm
      simp [hm, hne]
    | true =>
      cases hconv : R.convertibleTo t T with
      | true => simp [IsValid_convert R e c t T hcv hT hc hne hconv]
      | false => simp [IsValid_convert_mismatch R e c t T hcv hT hc hne hconv, hne]

theorem IsAnyValid_nil (R : Reflect) (e : Enum) : e.IsAnyValid R [] = .ok false := rfl

theorem IsAnyValid_cons (R : Reflect) (e : Enum) (c : Value) (cs : List Value) :
    e.IsAnyValid R (c :: cs) =
      match e.IsValid R c with
      | .error p => .error p
      | .ok true => .ok true
      | .ok false => e.IsAnyValid R cs := by
  simp only [Enum.IsAnyValid, bind, Except.bind, pure, Except.pure]
  cases e.IsValid R c with
  | error p => rfl
  | ok b => cases b <;> rfl

theorem AreAllValid_nil (R : Reflect) (e : Enum) : e.AreAllValid R [] = .ok true := rfl

theorem AreAllValid_cons (R : Reflect) (e : Enum) (c : Value) (cs : List Value) :
    e.AreAllValid R (c :: cs) =
      match e.IsValid R c with
      | .error p => .error p
      | .ok false => .ok false
      | .ok true => e.AreAllValid R cs := by
  simp only [Enum.AreAllValid, bind, Except.bind, pure, Except.pure]
  cases e.IsValid R c with
  | error p => rfl
  | ok b => cases b <;> rfl

/-- Left to right: `IsAnyValid` returns true at the first valid candidate when no
candidate before it panics. -/
theorem IsAnyValid_first_match (R : Reflect) (e : Enum) (pre : List Value) (c : Value)
    (post : List Value) (hpre : ∀ q ∈ pre, ∃ b, e.IsValid R q = .ok b)
    (hc : e.IsValid R c = .ok true) : e.IsAnyValid R (pre ++ c :: post) = .ok true := by
  induction pre with
  | nil => rw [List.nil_append, IsAnyValid_cons, hc]
  | cons q pre ih =>
    obtain ⟨b, hb⟩ := hpre q (List.mem_cons_self _ _)
    rw [List.cons_append, IsAnyValid_cons, hb]
    cases b with
    | true => rfl
    | false => exact ih (fun r hr => hpre r (List.mem_cons_of_mem _ hr))

/-- Left to right: `IsAnyValid` panics exactly when some candidate panics and every
candidate before it is looked up and not found; the panic is that candidate's. -/
theorem IsAnyValid_error_iff (R : Reflect) (e : Enum) (cs : List Value) (p : Panic) :
    e.IsAnyValid R cs = .error p ↔
      ∃ pre c post, cs = pre ++ c :: post ∧ (∀ q ∈ pre, e.IsValid R q = .ok false) ∧
        e.IsValid R c = .error p := by
  induction cs with
  | nil => simp [IsAnyValid_nil]
  | cons c cs ih =>
    rw [IsAnyValid_cons]
    cases hc : e.IsValid R c with
    | error p1 =>
      constructor
      · intro h
        exact ⟨[], c, cs, rfl, by simp, by rw [hc]; exact h⟩
      · rintro ⟨pre, c1, post, heq, hpre, hc1⟩
        cases pre with
        | nil =>
          simp only [List.nil_append, List.cons.injEq] at heq
          rw [← heq.1, hc] at hc1
          exact hc1
        | cons q pre =>
          simp only [List.cons_append, List.cons.injEq] at heq
          have := hpre q (List.mem_cons_self _ _)
          rw [← heq.1, hc] at this
          simp at this
    | ok b =>
      cases b with
      | true =>
        constructor
        · intro h
          simp at h
        · rintro ⟨pre, c1, post, heq, hpre, hc1⟩
          cases pre with
          | nil =>
            simp only [List.nil_append, List.cons.injEq] at heq
            rw [← heq.1, hc] at hc1
            simp at hc1
          | cons q pre =>
            simp only [List.cons_append, List.cons.injEq] at heq
            have := hpre q (List.mem_cons_self _ _)
            rw [← heq.1, hc] at this
            simp at this
      | false =>
        simp only
        rw [ih]
        constructor
        · rintro ⟨pre, c1, post, heq, hpre, hc1⟩
          refine ⟨c :: pre, c1, post, by simp [heq], ?_, hc1⟩
          intro q hq
          rcases List.mem_cons.mp hq with rfl | hq
          · exact hc
          · exact hpre q hq
        · rintro ⟨pre, c1, post, heq, hpre, hc1⟩
          cases pre with
          | nil =>
            simp only [List.nil_append, List.cons.injEq] at heq
            rw [← heq.1, hc] at hc1
            simp at hc1
          | cons q pre =>
            simp only [List.cons_append, List.cons.injEq] at heq
            exact ⟨pre, c1, post, heq.2, fun r hr => hpre r (List.mem_cons_of_mem _ hr), hc1⟩

/-! ## The queries: the claims -/

/-- C6, the code at the failing input: on the convert-mode Enum of 1, 2, 3 the call
`IsValid(nil)` does not panic with the type-mismatch message but with the runtime error
of the method call `t.ConvertibleTo` on the nil type, whatever the conversions are; on
the strict Enum of the same values the same call panics with the type-mismatch
message. -/
theorem IsValid_nil_in_convert_mode :
    ∀ R : Reflect,
      (∃ e, NewConvert [goInt 1, goInt 2, goInt 3] = .ok e ∧
        e.IsValid R .nil = .error .nilDereference) ∧
      (∃ e, New [goInt 1, goInt 2, goInt 3] = .ok e ∧
        e.IsValid R .nil = .error (.invalidType none (some (.basic .int)) false)) := by
  intro R
  refine ⟨⟨⟨entries [goInt 1, goInt 2, goInt 3], some (.basic .int), true⟩, by decide, ?_⟩,
    ⟨⟨entries [goInt 1, goInt 2, goInt 3], some (.basic .int), false⟩, by decide, ?_⟩⟩
  · exact IsValid_convert_nil R _ (.basic .int) rfl rfl
  · exact IsValid_strict_mismatch R _ .nil rfl (by decide)

/-- C7: on an Enum built by `NewConvert`, for a candidate whose type differs from the
value type and is convertible to it, `IsValid` returns a boolean, and it returns true
exactly when the candidate converted to the value type is `==` to one of the stored
values, which are the values passed to `NewConvert`. -/
theorem IsValid_converted (R : Reflect) (vs : List Value) (e : Enum) (c : Value)
    (t T : GoType) (he : NewConvert vs = .ok e) (hT : e.valueType = some T)
    (hc : TypeOf c = some t) (hne : t ≠ T) (hconv : R.convertibleTo t T = true) :
    e.enumList.keys = vs ∧ (∃ b, e.IsValid R c = .ok b) ∧
    (e.IsValid R c = .ok true ↔
      ∃ s ∈ e.enumList.keys, ifaceEq s (R.convert c T) = true) := by
  obtain ⟨T1, _, _, rfl⟩ := NewConvert_ok_inv vs e he
  have hv := IsValid_convert R ⟨entries vs, some T1, true⟩ c t T rfl hT hc hne hconv
  refine ⟨keys_entries vs, ⟨_, hv⟩, ?_⟩
  rw [hv, found_eq_any_keys]
  constructor
  · intro h
    exact List.any_eq_true.mp (Except.ok.inj h)
  · intro h
    exact congrArg Except.ok (List.any_eq_true.mpr h)

/-- C7, witness: on `NewConvert(1, 2, 3)` the `float64` candidate 1.0 converts to the
`int` 1 and is valid. -/
theorem IsValid_converted_witness :
    NewConvert [goInt 1, goInt 2, goInt 3] =
      .ok ⟨entries [goInt 1, goInt 2, goInt 3], some (.basic .int), true⟩ ∧
    numericReflect.convert (goFloat64 oneBits) (.basic .int) = goInt 1 ∧
    Enum.IsValid numericReflect ⟨entries [goInt 1, goInt 2, goInt 3], some (.basic .int), true⟩
      (goFloat64 oneBits) = .ok true :=
  ⟨by decide, by decide,
    (IsValid_converted numericReflect [goInt 1, goInt 2, goInt 3]
      ⟨entries [goInt 1, goInt 2, goInt 3], some (.basic .int), true⟩ (goFloat64 oneBits)
      (.basic .float64) (.basic .int) (by decide) rfl rfl (by decide) (by decide)).2.2.mpr
      ⟨goInt 1, by decide, by decide⟩⟩

/-- C8: on candidates whose types the Enum supports, `IsAnyValid` returns a boolean, and
it returns true exactly when `IsValid` is true for at least one candidate; with no
candidate it returns false. -/
theorem IsAnyValid_iff (R : Reflect) (e : Enum) (cs : List Value)
    (hs : ∀ c ∈ cs, e.isSupportedValueType R (TypeOf c) = .ok true) :
    (∃ b, e.IsAnyValid R cs = .ok b) ∧
    (e.IsAnyValid R cs = .ok true ↔ ∃ c ∈ cs, e.IsValid R c = .ok true) ∧
    e.IsAnyValid R [] = .ok false := by
  refine ⟨?_, ?_, IsAnyValid_nil R e⟩
  · induction cs with
    | nil => exact ⟨false, rfl⟩
    | cons c cs ih =>
      obtain ⟨b, hb⟩ := IsValid_ok_of_supported R e c (hs c (List.mem_cons_self _ _))
      rw [IsAnyValid_cons, hb]
      cases b with
      | true => exact ⟨true, rfl⟩
      | false => exact ih (fun r hr => hs r (List.mem_cons_of_mem _ hr))
  · induction cs with
    | nil => simp [IsAnyValid_nil]
    | cons c cs ih =>
      obtain ⟨b, hb⟩ := IsValid_ok_of_supported R e c (hs c (List.mem_cons_self _ _))
      rw [IsAnyValid_cons, hb]
      cases b with
      | true => simp [hb]
      | false =>
        simp only [List.mem_cons, exists_eq_or_imp, hb]
        rw [ih (fun r hr => hs r (List.mem_cons_of_mem _ hr))]
        simp

/-- C8, witness: on `New(1, 2, 3)`, `IsAnyValid(1, 5)`. -/
theorem IsAnyValid_iff_witness :
    (∃ b, Enum.IsAnyValid numericReflect
      ⟨entries [goInt 1, goInt 2, goInt 3], some (.basic .int), false⟩
      [goInt 1, goInt 5] = .ok b) ∧
    (Enum.IsAnyValid numericReflect
      ⟨entries [goInt 1, goInt 2, goInt 3], some (.basic .int), false⟩
      [goInt 1, goInt 5] = .ok true ↔
      ∃ c ∈ [goInt 1, goInt 5], Enum.IsValid numericReflect
        ⟨entries [goInt 1, goInt 2, goInt 3], some (.basic .int), false⟩ c = .ok true) ∧
    Enum.IsAnyValid numericReflect
      ⟨entries [goInt 1, goInt 2, goInt 3], some (.basic .int), false⟩ [] = .ok false :=
  IsAnyValid_iff numericReflect
    ⟨entries [goInt 1, goInt 2, goInt 3], some (.basic .int), false⟩ [goInt 1, goInt 5]
    (by decide)

/-- C9: on candidates whose types the Enum supports, `AreAllValid` returns a boolean,
and it returns true exactly when `IsValid` is true for every candidate; with no
candidate it returns true. -/
theorem AreAllValid_iff (R : Reflect) (e : Enum) (cs : List Value)
    (hs : ∀ c ∈ cs, e.isSupportedValueType R (TypeOf c) = .ok true) :
    (∃ b, e.AreAllValid R cs = .ok b) ∧
    (e.AreAllValid R cs = .ok true ↔ ∀ c ∈ cs, e.IsValid R c = .ok true) ∧
    e.AreAllValid R [] = .ok true := by
  refine ⟨?_, ?_, AreAllValid_nil R e⟩
  · induction cs with
    | nil => exact ⟨true, rfl⟩
    | cons c cs ih =>
      obtain ⟨b, hb⟩ := IsValid_ok_of_supported R e c (hs c (List.mem_cons_self _ _))
      rw [AreAllValid_cons, hb]
      cases b with
      | false => exact ⟨false, rfl⟩
      | true => exact ih (fun r hr => hs r (List.mem_cons_of_mem _ hr))
  · induction cs with
    | nil => simp [AreAllValid_nil]
    | cons c cs ih =>
      obtain ⟨b, hb⟩ := IsValid_ok_of_supported R e c (hs c (List.mem_cons_self _ _))
      rw [AreAllValid_cons, hb]
      cases b with
      | false => simp [hb]
      | true =>
        simp only [List.mem_cons, forall_eq_or_imp, hb]
        rw [ih (fun r hr => hs r (List.mem_cons_of_mem _ hr))]
        simp

/-- C9, witness: on `New(1, 2, 3)`, `AreAllValid(1, 5)`. -/
theorem AreAllValid_iff_witness :
    (∃ b, Enum.AreAllValid numericReflect
      ⟨entries [goInt 1, goInt 2, goInt 3], some (.basic .int), false⟩
      [goInt 1, goInt 5] = .ok b) ∧
    (Enum.AreAllValid numericReflect
      ⟨entries [goInt 1, goInt 2, goInt 3], some (.basic .int), false⟩
      [goInt 1, goInt 5] = .ok true ↔
      ∀ c ∈ [goInt 1, goInt 5], Enum.IsValid numericReflect
        ⟨entries [goInt 1, goInt 2, goInt 3], some (.basic .int), false⟩ c = .ok true) ∧
    Enum.AreAllValid numericReflect
      ⟨entries [goInt 1, goInt 2, goInt 3], some (.basic .int), false⟩ [] = .ok true :=
  AreAllValid_iff numericReflect
    ⟨entries [goInt 1, goInt 2, goInt 3], some (.basic .int), false⟩ [goInt 1, goInt 5]
    (by decide)

/-- C10, the code at the failing input: on the convert-mode Enum of 1, 2, 3 the calls
`IsAnyValid(nil)` and `IsAnyValid(nil, "A")` reach no valid candidate and do not panic
with the type-mismatch message but with the runtime error of the method call on the nil
type, whatever the conversions are; on the strict Enum `IsAnyValid("A", 1)` panics with
the type-mismatch message. -/
theorem IsAnyValid_nil_in_convert_mode :
    ∀ R : Reflect,
      (∃ e, NewConvert [goInt 1, goInt 2, goInt 3] = .ok e ∧
        e.IsAnyValid R [.nil] = .error .nilDereference ∧
        e.IsAnyValid R [.nil, goString [65]] = .error .nilDereference) ∧
      (∃ e, New [goInt 1, goInt 2, goInt 3] = .ok e ∧
        e.IsAnyValid R [goString [65], goInt 1] =
          .error (.invalidType (some (.basic .string)) (some (.basic .int)) false)) := by
  intro R
  refine ⟨⟨⟨entries [goInt 1, goInt 2, goInt 3], some (.basic .int), true⟩, by decide, ?_, ?_⟩,
    ⟨⟨entries [goInt 1, goInt 2, goInt 3], some (.basic .int), false⟩, by decide, ?_⟩⟩
  · rw [IsAnyValid_cons, IsValid_convert_nil R _ (.basic .int) rfl rfl]
  · rw [IsAnyValid_cons, IsValid_convert_nil R _ (.basic .int) rfl rfl]
  · rw [IsAnyValid_cons, IsValid_strict_mismatch R _ (goString [65]) rfl (by decide)]
    rfl

/-! ## The tests of the package, on the embedding -/

theorem test_CreateEnum : New [goInt 1, goInt 2, goInt 3] = .ok enum123 := by decide

theorem test_CreateEmptyEnumPanics : New [] = .error .emptyEnum := by decide

theorem test_CreateEnumOfNonHashableValuesPanics :
    New [Value.mk (.slice (.basic .int)) (.ref 0)] = .error .unhashable := by decide

theorem test_CreateEnumWithDifferentTypesPanics :
    New [goInt 1, goString [50]] =
      .error (.differentKinds (some (.basic .int)) (some (.basic .string))) := by decide

theorem test_CreateEnumWithDupedValuePanics :
    New [goInt 1, goInt 1] = .error (.repeated (goInt 1)) := by decide

theorem test_CheckingValidityOfUnsupportedTypePanics :
    enum123.IsValid numericReflect (goString [65]) =
      .error (.invalidType (some (.basic .string)) (some (.basic .int)) false) ∧
    enum123.IsAnyValid numericReflect [goString [65], goInt 1] =
      .error (.invalidType (some (.basic .string)) (some (.basic .int)) false) ∧
    enum123.AreAllValid numericReflect [goInt 1, goString [65]] =
      .error (.invalidType (some (.basic .string)) (some (.basic .int)) false) := by decide

theorem test_IsValid :
    enum123.IsValid numericReflect (goInt 1) = .ok true ∧
    enum123.IsValid numericReflect (goInt 4) = .ok false := by decide

theorem test_IsAnyValid :
    enum123.IsAnyValid numericReflect [] = .ok false ∧
    enum123.IsAnyValid numericReflect [goInt 1, goInt 2] = .ok true ∧
    enum123.IsAnyValid numericReflect [goInt 1, goInt 4] = .ok true ∧
    enum123.IsAnyValid numericReflect [goInt 4, goInt 5] = .ok false := by decide

theorem test_AreAllValid :
    enum123.AreAllValid numericReflect [] = .ok true ∧
    enum123.AreAllValid numericReflect [goInt 1, goInt 2] = .ok true ∧
    enum123.AreAllValid numericReflect [goInt 1, goInt 4] = .ok false ∧
    enum123.AreAllValid numericReflect [goInt 4, goInt 5] = .ok false := by decide

theorem test_StringEnum :
    ∃ e, New [goString [65], goString [66], goString [67]] = .ok e ∧
      e.IsValid numericReflect (goString [65]) = .ok true ∧
      e.IsValid numericReflect (goString [68]) = .ok false :=
  ⟨⟨entries [goString [65], goString [66], goString [67]], some (.basic .string), false⟩,
    by decide, by decide, by decide⟩

theorem test_ConvertEnum :
    enum123.IsValid numericReflect (goFloat64 oneBits) =
      .error (.invalidType (some (.basic .float64)) (some (.basic .int)) false) ∧
    ∃ e, NewConvert [goInt 1, goInt 2, goInt 3] = .ok e ∧
      e.IsValid numericReflect (goFloat64 oneBits) = .ok true :=
  ⟨by decide, ⟨entries [goInt 1, goInt 2, goInt 3], some (.basic .int), true⟩,
    by decide, by decide⟩

/-! ## The query `AreAllValid`, left to right -/

/-- Left to right: `AreAllValid` returns false at the first candidate that is looked up
and not found when every candidate before it is valid. -/
theorem AreAllValid_first_nonmatch (R : Reflect) (e : Enum) (pre : List Value) (c : Value)
    (post : List Value) (hpre : ∀ q ∈ pre, e.IsValid R q = .ok true)
    (hc : e.IsValid R c = .ok false) : e.AreAllValid R (pre ++ c :: post) = .ok false := by
  induction pre with
  | nil => rw [List.nil_append, AreAllValid_cons, hc]
  | cons q pre ih =>
    rw [List.cons_append, AreAllValid_cons, hpre q (List.mem_cons_self _ _)]
    exact ih (fun r hr => hpre r (List.mem_cons_of_mem _ hr))

/-- Left to right: `AreAllValid` panics exactly when some candidate panics and every
candidate before it is valid; the panic is that candidate's. -/
theorem AreAllValid_error_iff (R : Reflect) (e : Enum) (cs : List Value) (p : Panic) :
    e.AreAllValid R cs = .error p ↔
      ∃ pre c post, cs = pre ++ c :: post ∧ (∀ q ∈ pre, e.IsValid R q = .ok true) ∧
        e.IsValid R c = .error p := by
  induction cs with
  | nil => simp [AreAllValid_nil]
  | cons c cs ih =>
    rw [AreAllValid_cons]
    constructor
    · intro h
      cases hc : e.IsValid R c with
      | error p1 =>
        rw [hc] at h
        exact ⟨[], c, cs, rfl, by simp, by rw [hc]; exact h⟩
      | ok b =>
        rw [hc] at h
        cases b with
        | false => simp at h
        | true =>
          obtain ⟨pre, c1, post, heq, hpre, hc1⟩ := ih.mp h
          refine ⟨c :: pre, c1, post, by simp [heq], ?_, hc1⟩
          intro q hq
          rcases List.mem_cons.mp hq with rfl | hq
          · exact hc
          · exact hpre q hq
    · rintro ⟨pre, c1, post, heq, hpre, hc1⟩
      cases pre with
      | nil =>
        simp only [List.nil_append, List.cons.injEq] at heq
        rw [heq.1, hc1]
      | cons q pre =>
        simp only [List.cons_append, List.cons.injEq] at heq
        have hq := hpre q (List.mem_cons_self _ _)
        rw [heq.1, hq]
        exact ih.mpr ⟨pre, c1, post, heq.2, fun r hr => hpre r (List.mem_cons_of_mem _ hr), hc1⟩

/-- C11, the code at the failing input: on the convert-mode Enum of 1, 2, 3 the calls
`AreAllValid(nil)` and `AreAllValid(1, nil, "A")` meet no candidate that is looked up and
not found, and do not panic with the type-mismatch message but with the runtime error of
the method call on the nil type, whatever the conversions are; on the strict Enum
`AreAllValid(1, "A")` panics with the type-mismatch message. -/
theorem AreAllValid_nil_in_convert_mode :
    ∀ R : Reflect,
      (∃ e, NewConvert [goInt 1, goInt 2, goInt 3] = .ok e ∧
        e.AreAllValid R [.nil] = .error .nilDereference ∧
        e.AreAllValid R [goInt 1, .nil, goString [65]] = .error .nilDereference) ∧
      (∃ e, New [goInt 1, goInt 2, goInt 3] = .ok e ∧
        e.AreAllValid R [goInt 1, goString [65]] =
          .error (.invalidType (some (.basic .string)) (some (.basic .int)) false)) := by
  intro R
  refine ⟨⟨⟨entries [goInt 1, goInt 2, goInt 3], some (.basic .int), true⟩, by decide, ?_, ?_⟩,
    ⟨⟨entries [goInt 1, goInt 2, goInt 3], some (.basic .int), false⟩, by decide, ?_⟩⟩
  · rw [AreAllValid_cons, IsValid_convert_nil R _ (.basic .int) rfl rfl]
  · rw [AreAllValid_cons, IsValid_same_type R _ (goInt 1) rfl]
    have h1 : enumListMap.found (entries [goInt 1, goInt 2, goInt 3]) (goInt 1) = true := by
      decide
    simp only [h1]
    rw [AreAllValid_cons, IsValid_convert_nil R _ (.basic .int) rfl rfl]
  · rw [AreAllValid_cons, IsValid_same_type R _ (goInt 1) rfl]
    have h1 : enumListMap.found (entries [goInt 1, goInt 2, goInt 3]) (goInt 1) = true := by
      decide
    simp only [h1]
    rw [AreAllValid_cons, IsValid_strict_mismatch R _ (goString [65]) rfl (by decide)]
    rfl

/-! ## `NewConvert` against `New`, and the invariant of the Enum -/

/-- C12: `NewConvert` panics exactly when `New` panics, with the same panic; when they
succeed the two Enums have the same map and the same value type, the flag
`convertValues` being false after `New` and true after `NewConvert`. -/
theorem NewConvert_refines_New (vs : List Value) :
    (∀ p, NewConvert vs = .error p ↔ New vs = .error p) ∧
    (∀ e, New vs = .ok e →
      e.convertValues = false ∧ NewConvert vs = .ok ⟨e.enumList, e.valueType, true⟩) ∧
    (∀ e1, NewConvert vs = .ok e1 →
      e1.convertValues = true ∧ New vs = .ok ⟨e1.enumList, e1.valueType, false⟩) := by
  rw [NewConvert_eq]
  cases hn : New vs with
  | error p0 => simp
  | ok e =>
    obtain ⟨_, T, _, _, _, _, h6⟩ := New_ok_inv vs e hn
    subst h6
    refine ⟨by simp, ?_, ?_⟩
    · intro e2 h2
      have := Except.ok.inj h2
      subst this
      exact ⟨rfl, rfl⟩
    · intro e1 h1
      have := Except.ok.inj h1
      subst this
      exact ⟨rfl, rfl⟩

/-- C18: an Enum returned by `New` or `NewConvert` stores exactly the values passed to
the constructor, at least one; every stored value has the type `valueType`, a hashable
type, and no two stored values are `==`. -/
theorem constructed_invariant (vs : List Value) (e : Enum)
    (h : New vs = .ok e ∨ NewConvert vs = .ok e) :
    e.enumList.keys ≠ [] ∧ e.enumList.keys = vs ∧
    ∃ T, e.valueType = some T ∧ isHashable T = true ∧
      (∀ s ∈ e.enumList.keys, TypeOf s = some T) ∧ NoRepeat e.enumList.keys := by
  have key : ∃ c T, e = ⟨entries vs, some T, c⟩ ∧ vs ≠ [] ∧ isHashable T = true ∧
      (∀ v ∈ vs, TypeOf v = some T) ∧ NoRepeat vs := by
    rcases h with h | h
    · obtain ⟨h1, T, _, h3, h4, h5, h6⟩ := New_ok_inv vs e h
      exact ⟨false, T, h6, h1, h3, h4, h5⟩
    · rw [NewConvert_eq] at h
      cases hn : New vs with
      | error p => simp [hn] at h
      | ok e0 =>
        obtain ⟨h1, T, _, h3, h4, h5, h6⟩ := New_ok_inv vs e0 hn
        rw [hn, h6] at h
        exact ⟨true, T, (Except.ok.inj h).symm, h1, h3, h4, h5⟩
  obtain ⟨c, T, rfl, h1, h3, h4, h5⟩ := key
  have hk : (⟨entries vs, some T, c⟩ : Enum).enumList.keys = vs := keys_entries vs
  rw [hk]
  exact ⟨h1, rfl, T, rfl, h3, h4, h5⟩

/-- C18, witness: `New(1, 2, 3)`. -/
theorem constructed_invariant_witness :
    enum123.enumList.keys ≠ [] ∧ enum123.enumList.keys = [goInt 1, goInt 2, goInt 3] ∧
    ∃ T, enum123.valueType = some T ∧ isHashable T = true ∧
      (∀ s ∈ enum123.enumList.keys, TypeOf s = some T) ∧ NoRepeat enum123.enumList.keys :=
  constructed_invariant [goInt 1, goInt 2, goInt 3] enum123 (Or.inl (by decide))

/-! ## The first offending value decides the panic of `New` -/

/-- When the loop panics from a state whose value type is set, it does so at the first
value that has another type or is `==` to a key of the map; the values before it are
stored, and the type is compared before the map is searched. -/
theorem loop_error_inv (T : GoType) (c : Bool) (vs : List Value) (m : enumListMap)
    (p : Panic) (h : New.loop ⟨m, some T, c⟩ vs = .error p) :
    ∃ pre w post, vs = pre ++ w :: post ∧
      New.loop ⟨m, some T, c⟩ pre = .ok ⟨m ++ entries pre, some T, c⟩ ∧
      ((TypeOf w ≠ some T ∧ p = .differentKinds (some T) (TypeOf w)) ∨
        (TypeOf w = some T ∧ (m ++ entries pre).found w = true ∧ p = .repeated w)) := by
  induction vs generalizing m with
  | nil => simp [loop_nil] at h
  | cons v vs ih =>
    rw [loop_cons] at h
    by_cases hv : TypeOf v = some T
    · rw [step_later m c T v hv] at h
      cases hf : m.found v with
      | true =>
        simp only [hf, if_true] at h
        exact ⟨[], v, vs, rfl, by simp [loop_nil, entries],
          Or.inr ⟨hv, by simpa [entries] using hf, (Except.error.inj h).symm⟩⟩
      | false =>
        rw [hf, set_of_not_found m v goTrue hf] at h
        simp only [Bool.false_eq_true, if_false] at h
        obtain ⟨pre, w, post, heq, hpre, hw⟩ := ih (m ++ [(v, goTrue)]) h
        have he : m ++ [(v, goTrue)] ++ entries pre = m ++ entries (v :: pre) := by
          simp [entries]
        refine ⟨v :: pre, w, post, by simp [heq], ?_, ?_⟩
        · rw [loop_cons, step_later m c T v hv, hf, set_of_not_found m v goTrue hf]
          simp only [Bool.false_eq_true, if_false]
          rw [hpre, he]
        · rw [← he]
          exact hw
    · rw [step_later_mismatch m c T v hv] at h
      exact ⟨[], v, vs, rfl, by simp [loop_nil, entries],
        Or.inl ⟨hv, (Except.error.inj h).symm⟩⟩

/-- C20: when `New` panics on a non-empty list, the list splits at a first offending
value `w`: the values before it are accepted on their own, and the panic is decided by
`w` and them alone. Only a first value is checked for hashability (and a nil first value
raises the runtime error of `t.Kind()` on the nil type); a later value is compared with
the type of the first value before the map is searched, so that it is reported as of a
different kind when its type differs, and as repeated only when it has that type and is
`==` to an earlier value. In particular the unhashable-type panic arises only from the
first value. -/
theorem New_first_offender (vs : List Value) (p : Panic) (hne : vs ≠ [])
    (h : New vs = .error p) :
    (∃ pre w post, vs = pre ++ w :: post ∧ (pre = [] ∨ ∃ e, New pre = .ok e) ∧
      ((pre = [] ∧ ((w = .nil ∧ p = .nilDereference) ∨
          (∃ t, TypeOf w = some t ∧ isHashable t = false ∧ p = .unhashable))) ∨
        (∃ T, pre.head?.bind TypeOf = some T ∧
          ((TypeOf w ≠ some T ∧ p = .differentKinds (some T) (TypeOf w)) ∨
            (TypeOf w = some T ∧ (∃ u ∈ pre, ifaceEq u w = true) ∧ p = .repeated w))))) ∧
    (p = .unhashable → ∃ t, vs.head?.bind TypeOf = some t ∧ isHashable t = false) ∧
    (∀ pre w post T U, vs = pre ++ w :: post → pre ≠ [] → isHashable T = true →
      (∀ v ∈ pre, TypeOf v = some T) → NoRepeat pre → TypeOf w = some U →
      isHashable U = false → p = .differentKinds (some T) (some U)) := by
  rw [← and_assoc]
  refine ⟨?_, ?_⟩
  swap
  · intro pre w post T U heq hpre hT hty hr hw hU
    have hne2 : TypeOf w ≠ some T := by
      rw [hw]
      intro hc
      rw [Option.some.inj hc, hT] at hU
      exact absurd hU (by decide)
    rw [heq, New_append T pre (w :: post) hpre hT hty hr, loop_cons,
      step_later_mismatch _ false T w hne2, hw] at h
    exact (Except.error.inj h).symm
  cases vs with
  | nil => exact absurd rfl hne
  | cons v rest =>
    cases v with
    | nil =>
      rw [New_cons, loop_cons, step_first_nil] at h
      have hp := (Except.error.inj h).symm
      subst hp
      exact ⟨⟨[], .nil, rest, rfl, Or.inl rfl, Or.inl ⟨rfl, Or.inl ⟨rfl, rfl⟩⟩⟩, by simp⟩
    | mk t d =>
      cases ht : isHashable t with
      | false =>
        rw [New_cons, loop_cons, step_first_unhashable [] false t d ht] at h
        have hp := (Except.error.inj h).symm
        subst hp
        exact ⟨⟨[], .mk t d, rest, rfl, Or.inl rfl, Or.inl ⟨rfl, Or.inr ⟨t, rfl, ht, rfl⟩⟩⟩,
          fun _ => ⟨t, rfl, ht⟩⟩
      | true =>
        rw [New_first t d rest ht] at h
        obtain ⟨pre, w, post, heq, hpre, hw⟩ := loop_error_inv t false rest _ p h
        have hok : New (.mk t d :: pre) = .ok ⟨entries [.mk t d] ++ entries pre, some t, false⟩ := by
          rw [New_first t d pre ht, hpre]
        have hfound : ∀ x, (entries [Value.mk t d] ++ entries pre).found x = true →
            ∃ u ∈ Value.mk t d :: pre, ifaceEq u x = true := by
          intro x hx
          have he : entries [Value.mk t d] ++ entries pre = entries (Value.mk t d :: pre) := by
            simp [entries]
          rw [he, found_entries] at hx
          exact List.any_eq_true.mp hx
        refine ⟨⟨.mk t d :: pre, w, post, by simp [heq], Or.inr ⟨_, hok⟩,
          Or.inr ⟨t, rfl, ?_⟩⟩, ?_⟩
        · rcases hw with ⟨h1, h2⟩ | ⟨h1, h2, h3⟩
          · exact Or.inl ⟨h1, h2⟩
          · exact Or.inr ⟨h1, hfound w h2, h3⟩
        · intro hp
          rcases hw with ⟨_, h2⟩ | ⟨_, _, h3⟩
          · rw [hp] at h2
            exact absurd h2 (by simp)
          · rw [hp] at h3
            exact absurd h3 (by simp)

/-- C20, witness: `New(1, 1, "2")` reports the repeated value, `New(1, "2", 1)` the
different kinds, and `New(1, []int{1})` the different kinds, not the unhashable type. -/
theorem New_first_offender_witness :
    New [goInt 1, goInt 1, goString [50]] = .error (.repeated (goInt 1)) ∧
    New [goInt 1, goString [50], goInt 1] =
      .error (.differentKinds (some (.basic .int)) (some (.basic .string))) ∧
    New [goInt 1, Value.mk (.slice (.basic .int)) (.ref 1)] =
      .error (.differentKinds (some (.basic .int)) (some (.slice (.basic .int)))) ∧
    (∃ pre w post, [goInt 1, goInt 1, goString [50]] = pre ++ w :: post ∧
      (pre = [] ∨ ∃ e, New pre = .ok e) ∧
      ((pre = [] ∧ ((w = .nil ∧ Panic.repeated (goInt 1) = .nilDereference) ∨
          (∃ t, TypeOf w = some t ∧ isHashable t = false ∧
            Panic.repeated (goInt 1) = .unhashable))) ∨
        (∃ T, pre.head?.bind TypeOf = some T ∧
          ((TypeOf w ≠ some T ∧
              Panic.repeated (goInt 1) = .differentKinds (some T) (TypeOf w)) ∨
            (TypeOf w = some T ∧ (∃ u ∈ pre, ifaceEq u w = true) ∧
              Panic.repeated (goInt 1) = .repeated w))))) :=
  ⟨by decide, by decide, by decide,
    (New_first_offender [goInt 1, goInt 1, goString [50]] (.repeated (goInt 1))
      (by decide) (by decide)).1⟩

/-! ## Types: kinds and element types -/

theorem underlying_Kind : ∀ t : GoType, t.underlying.Kind = t.Kind
  | .named _ u => by
    rw [GoType.underlying, GoType.Kind]
    exact underlying_Kind u
  | .basic _ => rfl
  | .array _ _ => rfl
  | .chan _ => rfl
  | .func _ _ _ => rfl
  | .iface _ => rfl
  | .map _ _ => rfl
  | .ptr _ => rfl
  | .slice _ => rfl
  | .structT _ => rfl
  | .unsafePointer => rfl

theorem underlying_not_named : ∀ (t : GoType) (n : String) (u : GoType),
    t.underlying ≠ .named n u
  | .named _ v, n, u => by
    rw [GoType.underlying]
    exact underlying_not_named v n u
  | .basic _, _, _ => by simp [GoType.underlying]
  | .array _ _, _, _ => by simp [GoType.underlying]
  | .chan _, _, _ => by simp [GoType.underlying]
  | .func _ _ _, _, _ => by simp [GoType.underlying]
  | .iface _, _, _ => by simp [GoType.underlying]
  | .map _ _, _, _ => by simp [GoType.underlying]
  | .ptr _, _, _ => by simp [GoType.underlying]
  | .slice _, _, _ => by simp [GoType.underlying]
  | .structT _, _, _ => by simp [GoType.underlying]
  | .unsafePointer, _, _ => by simp [GoType.underlying]

/-- A type of kind `Ptr` has an element type. -/
theorem Elem_of_Kind_Ptr (t : GoType) (h : t.Kind = Kind.Ptr) : ∃ el, t.Elem = some el := by
  rw [← underlying_Kind] at h
  unfold GoType.Elem
  cases hu : t.underlying with
  | named n u => exact absurd hu (underlying_not_named t n u)
  | ptr el => exact ⟨el, rfl⟩
  | basic b => rw [hu] at h; cases b <;> simp [GoType.Kind, Basic.kind] at h
  | array _ _ => rw [hu] at h; simp [GoType.Kind] at h
  | chan _ => rw [hu] at h; simp [GoType.Kind] at h
  | func _ _ _ => rw [hu] at h; simp [GoType.Kind] at h
  | iface _ => rw [hu] at h; simp [GoType.Kind] at h
  | map _ _ => rw [hu] at h; simp [GoType.Kind] at h
  | slice _ => rw [hu] at h; simp [GoType.Kind] at h
  | structT _ => rw [hu] at h; simp [GoType.Kind] at h
  | unsafePointer => rw [hu] at h; simp [GoType.Kind] at h

/-- A type of kind `Slice` has an element type. -/
theorem Elem_of_Kind_Slice (t : GoType) (h : t.Kind = Kind.Slice) :
    ∃ el, t.Elem = some el := by
  rw [← underlying_Kind] at h
  unfold GoType.Elem
  cases hu : t.underlying with
  | named n u => exact absurd hu (underlying_not_named t n u)
  | slice el => exact ⟨el, rfl⟩
  | basic b => rw [hu] at h; cases b <;> simp [GoType.Kind, Basic.kind] at h
  | array _ _ => rw [hu] at h; simp [GoType.Kind] at h
  | chan _ => rw [hu] at h; simp [GoType.Kind] at h
  | func _ _ _ => rw [hu] at h; simp [GoType.Kind] at h
  | iface _ => rw [hu] at h; simp [GoType.Kind] at h
  | map _ _ => rw [hu] at h; simp [GoType.Kind] at h
  | ptr _ => rw [hu] at h; simp [GoType.Kind] at h
  | structT _ => rw [hu] at h; simp [GoType.Kind] at h
  | unsafePointer => rw [hu] at h; simp [GoType.Kind] at h

/-- A function type with one parameter has a first parameter. -/
theorem In_of_NumIn (t : GoType) (h : t.NumIn = 1) : ∃ in0, t.In 0 = some in0 := by
  unfold GoType.NumIn at h
  unfold GoType.In
  split at h
  · next ins _ _ heq =>
    cases hl : ins.toList with
    | nil => simp [hl] at h
    | cons a l => exact ⟨a, by simp⟩
  · simp at h

/-! ## The check of the target function -/

/-- On a non-nil type and an Enum with a value type, `isSupportedValueType` returns: the
type is the value type or, in convert mode, is convertible to it. -/
theorem isSupportedValueType_some (R : Reflect) (e : Enum) (t T : GoType)
    (hT : e.valueType = some T) :
    e.isSupportedValueType R (some t) =
      .ok (decide (t = T) || (e.convertValues && R.convertibleTo t T)) := by
  unfold Enum.isSupportedValueType
  rw [hT]
  by_cases h : t = T
  · simp [h, pure, Except.pure]
  · cases hc : e.convertValues <;>
      simp [h, hc, Reflect.ConvertibleTo, pure, Except.pure]

theorem FuncOf_Out (ins : List GoType) (out : GoType) (variadic : Bool) :
    (FuncOf ins [out] variadic).Out 0 = some out := by
  simp [FuncOf, GoType.Out, GoType.underlying, GoTypes.ofList, GoTypes.toList]

/-- With a value type, the condition on the parameters is evaluated without a panic: it
holds unless the function has exactly one parameter and, for a method that is not
variadic, this parameter has a supported type, or, for a variadic method, it has kind
`Slice` and its element type is supported. -/
theorem wrongInArgs_eq (R : Reflect) (e : Enum) (T t : GoType) (variadic : Bool)
    (hT : e.valueType = some T) :
    ∃ b, e.wrongInArgs R t variadic = .ok b ∧
      (b = false ↔ t.NumIn = 1 ∧ ∃ in0, t.In 0 = some in0 ∧
        ((variadic = false ∧ e.isSupportedValueType R (some in0) = .ok true) ∨
          (variadic = true ∧ in0.Kind = Kind.Slice ∧ ∃ el, in0.Elem = some el ∧
            e.isSupportedValueType R (some el) = .ok true))) := by
  unfold Enum.wrongInArgs
  by_cases hn : t.NumIn = 1
  · obtain ⟨in0, hin⟩ := In_of_NumIn t hn
    simp only [hn, ne_eq, not_true_eq_false, if_false, hin, Option.map_some,
      Option.some.injEq, Option.bind_some, true_and, exists_eq_left']
    cases variadic with
    | false =>
      obtain ⟨b, hb⟩ : ∃ b, e.isSupportedValueType R (some in0) = .ok b :=
        ⟨_, isSupportedValueType_some R e in0 T hT⟩
      rw [hb]
      refine ⟨!b, by simp [Except.map], ?_⟩
      cases b <;> simp
    | true =>
      by_cases hk : in0.Kind = Kind.Slice
      · obtain ⟨el, hel⟩ := Elem_of_Kind_Slice in0 hk
        obtain ⟨b, hb⟩ : ∃ b, e.isSupportedValueType R (some el) = .ok b :=
          ⟨_, isSupportedValueType_some R e el T hT⟩
        refine ⟨!b, by simp [hk, hel, hb, Except.map], ?_⟩
        cases b <;> simp [hk, hel, hb]
      · exact ⟨true, by simp [hk], by simp [hk]⟩
  · exact ⟨true, by simp [hn], by simp [hn]⟩

/-- The check passes exactly for a non-nil pointer to a function whose parameters pass
the third `if` and whose only result is of type `bool`. -/
theorem supportedFunctionType_ok_iff (R : Reflect) (e : Enum) (targetFunc : Value)
    (variadic : Bool) :
    e.supportedFunctionTypeOrPanic R targetFunc variadic = .ok () ↔
      ∃ T pt t, e.valueType = some T ∧ TypeOf targetFunc = some pt ∧ pt.Kind = Kind.Ptr ∧
        targetFunc.addr ≠ 0 ∧ pt.Elem = some t ∧ t.Kind = Kind.Func ∧
        e.wrongInArgs R t variadic = .ok false ∧ t.NumOut = 1 ∧ t.Out 0 = some boolType := by
  constructor
  · intro h
    unfold Enum.supportedFunctionTypeOrPanic at h
    cases hT : e.valueType with
    | none => simp [hT] at h
    | some T =>
      cases hpt : TypeOf targetFunc with
      | none => simp [hT, hpt] at h
      | some pt =>
        simp only [hT, hpt, FuncOf_Out] at h
        by_cases hk : pt.Kind = Kind.Ptr
        · by_cases ha : targetFunc.addr = 0
          · simp [hk, ha] at h
          · cases hel : pt.Elem with
            | none => simp [hk, ha, hel] at h
            | some t =>
              by_cases hf : t.Kind = Kind.Func
              · cases hw : e.wrongInArgs R t variadic with
                | error p => simp [hk, ha, hel, hf, hw] at h
                | ok b =>
                  cases b with
                  | true => simp [hk, ha, hel, hf, hw] at h
                  | false =>
                    simp only [hk, ha, hel, hf, hw, ne_eq, not_true_eq_false, if_false] at h
                    split at h
                    · simp at h
                    · next ho =>
                      simp only [not_or, not_not] at ho
                      exact ⟨T, pt, t, rfl, rfl, hk, ha, hel, hf, hw, ho.1, ho.2⟩
              · simp [hk, ha, hel, hf] at h
        · simp [hk] at h
  · rintro ⟨T, pt, t, hT, hpt, hk, ha, hel, hf, hw, ho1, ho2⟩
    unfold Enum.supportedFunctionTypeOrPanic
    simp [hT, hpt, hk, ha, hel, hf, hw, ho1, ho2, FuncOf_Out]

/-- With a value type and a target that is not nil and not a nil pointer, the check fails
only with the shape-mismatch panic. -/
theorem supportedFunctionType_error_shape (R : Reflect) (e : Enum) (T pt : GoType)
    (d : Data) (variadic : Bool) (p : Panic) (hT : e.valueType = some T)
    (hnil : pt.Kind = Kind.Ptr → Value.addr (.mk pt d) ≠ 0)
    (h : e.supportedFunctionTypeOrPanic R (.mk pt d) variadic = .error p) :
    ∃ x details c, p = .shape x pt details c := by
  unfold Enum.supportedFunctionTypeOrPanic at h
  simp only [hT, TypeOf, FuncOf_Out] at h
  by_cases hk : pt.Kind = Kind.Ptr
  · have ha := hnil hk
    obtain ⟨t, hel⟩ := Elem_of_Kind_Ptr pt hk
    by_cases hf : t.Kind = Kind.Func
    · obtain ⟨b, hb, _⟩ := wrongInArgs_eq R e T t variadic hT
      simp only [hk, ha, hel, hf, hb, ne_eq, not_true_eq_false, if_false] at h
      cases b with
      | true => exact ⟨_, _, _, (Except.error.inj h).symm⟩
      | false =>
        simp only at h
        split at h
        · exact ⟨_, _, _, (Except.error.inj h).symm⟩
        · simp at h
    · simp only [hk, ha, hel, hf, ne_eq, not_true_eq_false, if_false, not_false_eq_true,
        if_true] at h
      exact ⟨_, _, _, (Except.error.inj h).symm⟩
  · simp only [hk, ne_eq, not_false_eq_true, if_true] at h
    exact ⟨_, _, _, (Except.error.inj h).symm⟩

/-! ## The method `setTypedMethod` and the function it installs -/

theorem setTypedMethod_error (R : Reflect) (e : Enum) (targetFunc : Value) (method : Method)
    (mem : Memory) (p : Panic)
    (h : e.supportedFunctionTypeOrPanic R targetFunc method.IsVariadic = .error p) :
    e.setTypedMethod R targetFunc method mem = (.error p, mem) := by
  simp [Enum.setTypedMethod, h]

theorem setTypedMethod_ok (R : Reflect) (e : Enum) (targetFunc : Value) (method : Method)
    (mem : Memory) (pt t : GoType) (hpt : TypeOf targetFunc = some pt)
    (hel : pt.Elem = some t)
    (h : e.supportedFunctionTypeOrPanic R targetFunc method.IsVariadic = .ok ()) :
    e.setTypedMethod R targetFunc method mem =
      (.ok (), mem.set targetFunc.addr (.made t e method)) := by
  simp [Enum.setTypedMethod, h, hpt, hel]

/-- The method `setTypedMethod` returns without a panic exactly when the check passes. -/
theorem setTypedMethod_ok_iff (R : Reflect) (e : Enum) (targetFunc : Value)
    (method : Method) (mem : Memory) :
    (e.setTypedMethod R targetFunc method mem).1 = .ok () ↔
      e.supportedFunctionTypeOrPanic R targetFunc method.IsVariadic = .ok () := by
  constructor
  · intro h
    cases hc : e.supportedFunctionTypeOrPanic R targetFunc method.IsVariadic with
    | error p => rw [setTypedMethod_error R e targetFunc method mem p hc] at h; simp at h
    | ok u => rfl
  · intro h
    obtain ⟨T, pt, t, _, hpt, _, _, hel, _⟩ :=
      (supportedFunctionType_ok_iff R e targetFunc method.IsVariadic).mp h
    rw [setTypedMethod_ok R e targetFunc method mem pt t hpt hel h]

/-- After a successful `setTypedMethod` the target variable holds the function made for
its type, the Enum and the method. -/
theorem setTypedMethod_installs (R : Reflect) (e : Enum) (targetFunc : Value)
    (method : Method) (mem : Memory)
    (h : (e.setTypedMethod R targetFunc method mem).1 = .ok ()) :
    ∃ T pt t, e.valueType = some T ∧ TypeOf targetFunc = some pt ∧ pt.Elem = some t ∧
      e.wrongInArgs R t method.IsVariadic = .ok false ∧
      (e.setTypedMethod R targetFunc method mem).2 targetFunc.addr = .made t e method := by
  have hc := (setTypedMethod_ok_iff R e targetFunc method mem).mp h
  obtain ⟨T, pt, t, hT, hpt, _, _, hel, _, hw, _⟩ :=
    (supportedFunctionType_ok_iff R e targetFunc method.IsVariadic).mp hc
  refine ⟨T, pt, t, hT, hpt, hel, hw, ?_⟩
  rw [setTypedMethod_ok R e targetFunc method mem pt t hpt hel hc]
  simp [Memory.set]

theorem collectLoop_eq (args0 : RValue) (n i : Nat) (a : List Value)
    (h : i + n = args0.Len) :
    collectLoop args0 n i a = .ok (a ++ args0.elems.drop i) := by
  induction n generalizing i a with
  | zero =>
    have hi : args0.elems.length ≤ i := by
      simp only [RValue.Len] at h
      omega
    simp [collectLoop, List.drop_eq_nil_of_le hi]
  | succ n ih =>
    have hi : i < args0.elems.length := by
      simp only [RValue.Len] at h
      omega
    have hidx : args0.Index i = .ok (args0.elems.get ⟨i, hi⟩) := by
      simp [RValue.Index, List.getElem?_eq_getElem hi]
    have hlt : i < args0.Len := hi
    rw [collectLoop]
    simp only [hlt, if_true, hidx]
    rw [ih (i + 1) _ (by omega)]
    congr 1
    rw [List.append_assoc]
    congr 1
    rw [List.singleton_append]
    exact (List.drop_eq_getElem_cons hi).symm

/-- The loop of the wrapped function collects the elements of `args[0]`: the same
elements, as many, in the same order. -/
theorem collect_eq (args0 : RValue) : collect args0 = .ok args0.elems := by
  rw [collect, collectLoop_eq args0 args0.Len 0 [] (by simp)]
  simp

theorem typedMethod_IsValid (R : Reflect) (e : Enum) (x : RValue) :
    e.typedMethod R .IsValid [x] = (e.IsValid R x.Interface).map (fun b => [goBool b]) := by
  simp [Enum.typedMethod, Method.IsVariadic, Method.Call]

theorem typedMethod_IsAnyValid (R : Reflect) (e : Enum) (s : RValue) :
    e.typedMethod R .IsAnyValid [s] = (e.IsAnyValid R s.elems).map (fun b => [goBool b]) := by
  simp [Enum.typedMethod, Method.IsVariadic, Method.CallSlice, collect_eq]

theorem typedMethod_AreAllValid (R : Reflect) (e : Enum) (s : RValue) :
    e.typedMethod R .AreAllValid [s] =
      (e.AreAllValid R s.elems).map (fun b => [goBool b]) := by
  simp [Enum.typedMethod, Method.IsVariadic, Method.CallSlice, collect_eq]

/-! ## The typed methods: the claims -/

/-- C13: when `SetTypedIsValid` accepts a target, the variable it points to holds the
function made for its type, and this function, called with an argument `x`, returns
exactly what `IsValid` returns on `x`: the same boolean as its one result, or the same
panic. -/
theorem SetTypedIsValid_refines (R : Reflect) (e : Enum) (targetFunc : Value)
    (mem : Memory) (h : (e.SetTypedIsValid R targetFunc mem).1 = .ok ()) :
    ∃ typ, (TypeOf targetFunc).bind GoType.Elem = some typ ∧
      (e.SetTypedIsValid R targetFunc mem).2 targetFunc.addr = .made typ e .IsValid ∧
      ∀ x : RValue, ((e.SetTypedIsValid R targetFunc mem).2 targetFunc.addr).call R [x] =
        (e.IsValid R x.Interface).map (fun b => [goBool b]) := by
  obtain ⟨T, pt, t, _, hpt, hel, _, hmem⟩ :=
    setTypedMethod_installs R e targetFunc .IsValid mem h
  refine ⟨t, by simp [hpt, hel], hmem, ?_⟩
  intro x
  rw [Enum.SetTypedIsValid, hmem]
  exact typedMethod_IsValid R e x

/-- C13, witness: `New(1, 2, 3)` and a target `func(int) bool`; the installed function
is true on 1, 2, 3 and false on 4. -/
theorem SetTypedIsValid_refines_witness :
    (∃ typ, (TypeOf (ptrTo (FuncOf [.basic .int] [boolType] false) 1)).bind GoType.Elem
        = some typ ∧
      (enum123.SetTypedIsValid numericReflect
        (ptrTo (FuncOf [.basic .int] [boolType] false) 1) noFuncs).2
        (ptrTo (FuncOf [.basic .int] [boolType] false) 1).addr = .made typ enum123 .IsValid ∧
      ∀ x : RValue, ((enum123.SetTypedIsValid numericReflect
        (ptrTo (FuncOf [.basic .int] [boolType] false) 1) noFuncs).2
        (ptrTo (FuncOf [.basic .int] [boolType] false) 1).addr).call numericReflect [x] =
        (enum123.IsValid numericReflect x.Interface).map (fun b => [goBool b])) ∧
    ((enum123.SetTypedIsValid numericReflect
        (ptrTo (FuncOf [.basic .int] [boolType] false) 1) noFuncs).2 1).call numericReflect
      [scalarArg (goInt 1)] = .ok [goBool true] ∧
    ((enum123.SetTypedIsValid numericReflect
        (ptrTo (FuncOf [.basic .int] [boolType] false) 1) noFuncs).2 1).call numericReflect
      [scalarArg (goInt 2)] = .ok [goBool true] ∧
    ((enum123.SetTypedIsValid numericReflect
        (ptrTo (FuncOf [.basic .int] [boolType] false) 1) noFuncs).2 1).call numericReflect
      [scalarArg (goInt 3)] = .ok [goBool true] ∧
    ((enum123.SetTypedIsValid numericReflect
        (ptrTo (FuncOf [.basic .int] [boolType] false) 1) noFuncs).2 1).call numericReflect
      [scalarArg (goInt 4)] = .ok [goBool false] :=
  ⟨SetTypedIsValid_refines numericReflect enum123
      (ptrTo (FuncOf [.basic .int] [boolType] false) 1) noFuncs (by decide),
    by decide, by decide, by decide, by decide⟩

/-- C14: when `SetTypedIsAnyValid` (respectively `SetTypedAreAllValid`) accepts a target,
the variable it points to holds the function made for its type, and this function,
called with the slice of its variadic arguments, returns exactly what `IsAnyValid`
(respectively `AreAllValid`) returns on these arguments: the loop collects the same
elements, as many, in the same order. -/
theorem SetTypedVariadic_refines (R : Reflect) (e : Enum) (targetFunc : Value)
    (mem : Memory) :
    ((e.SetTypedIsAnyValid R targetFunc mem).1 = .ok () →
      ∃ typ, (e.SetTypedIsAnyValid R targetFunc mem).2 targetFunc.addr =
          .made typ e .IsAnyValid ∧
        ∀ s : RValue,
          ((e.SetTypedIsAnyValid R targetFunc mem).2 targetFunc.addr).call R [s] =
            (e.IsAnyValid R s.elems).map (fun b => [goBool b])) ∧
    ((e.SetTypedAreAllValid R targetFunc mem).1 = .ok () →
      ∃ typ, (e.SetTypedAreAllValid R targetFunc mem).2 targetFunc.addr =
          .made typ e .AreAllValid ∧
        ∀ s : RValue,
          ((e.SetTypedAreAllValid R targetFunc mem).2 targetFunc.addr).call R [s] =
            (e.AreAllValid R s.elems).map (fun b => [goBool b])) ∧
    (∀ s : RValue, collect s = .ok s.elems) := by
  refine ⟨?_, ?_, collect_eq⟩
  · intro h
    obtain ⟨T, pt, t, _, _, _, _, hmem⟩ :=
      setTypedMethod_installs R e targetFunc .IsAnyValid mem h
    refine ⟨t, hmem, ?_⟩
    intro s
    rw [Enum.SetTypedIsAnyValid, hmem]
    exact typedMethod_IsAnyValid R e s
  · intro h
    obtain ⟨T, pt, t, _, _, _, _, hmem⟩ :=
      setTypedMethod_installs R e targetFunc .AreAllValid mem h
    refine ⟨t, hmem, ?_⟩
    intro s
    rw [Enum.SetTypedAreAllValid, hmem]
    exact typedMethod_AreAllValid R e s

/-- C14, witness: `New(1, 2, 3)` and a target `func(...int) bool`; the function installed
by `SetTypedIsAnyValid` is true on (1, 4) and false on (4, 5) and on no argument, the
one installed by `SetTypedAreAllValid` is true on (1, 2) and false on (1, 4). -/
theorem SetTypedVariadic_refines_witness :
    (enum123.SetTypedIsAnyValid numericReflect
      (ptrTo (FuncOf [.slice (.basic .int)] [boolType] true) 1) noFuncs).1 = .ok () ∧
    (∃ typ, (enum123.SetTypedIsAnyValid numericReflect
        (ptrTo (FuncOf [.slice (.basic .int)] [boolType] true) 1) noFuncs).2
        (ptrTo (FuncOf [.slice (.basic .int)] [boolType] true) 1).addr =
          .made typ enum123 .IsAnyValid ∧
      ∀ s : RValue, ((enum123.SetTypedIsAnyValid numericReflect
        (ptrTo (FuncOf [.slice (.basic .int)] [boolType] true) 1) noFuncs).2
        (ptrTo (FuncOf [.slice (.basic .int)] [boolType] true) 1).addr).call numericReflect [s]
        = (enum123.IsAnyValid numericReflect s.elems).map (fun b => [goBool b])) ∧
    ((enum123.SetTypedIsAnyValid numericReflect
        (ptrTo (FuncOf [.slice (.basic .int)] [boolType] true) 1) noFuncs).2 1).call
      numericReflect [variadicArgs (.slice (.basic .int)) 2 [goInt 1, goInt 4]]
      = .ok [goBool true] ∧
    ((enum123.SetTypedIsAnyValid numericReflect
        (ptrTo (FuncOf [.slice (.basic .int)] [boolType] true) 1) noFuncs).2 1).call
      numericReflect [variadicArgs (.slice (.basic .int)) 2 [goInt 4, goInt 5]]
      = .ok [goBool false] ∧
    ((enum123.SetTypedIsAnyValid numericReflect
        (ptrTo (FuncOf [.slice (.basic .int)] [boolType] true) 1) noFuncs).2 1).call
      numericReflect [variadicArgs (.slice (.basic .int)) 2 []] = .ok [goBool false] ∧
    ((enum123.SetTypedAreAllValid numericReflect
        (ptrTo (FuncOf [.slice (.basic .int)] [boolType] true) 1) noFuncs).2 1).call
      numericReflect [variadicArgs (.slice (.basic .int)) 2 [goInt 1, goInt 2]]
      = .ok [goBool true] ∧
    ((enum123.SetTypedAreAllValid numericReflect
        (ptrTo (FuncOf [.slice (.basic .int)] [boolType] true) 1) noFuncs).2 1).call
      numericReflect [variadicArgs (.slice (.basic .int)) 2 [goInt 1, goInt 4]]
      = .ok [goBool false] :=
  ⟨by decide,
    (SetTypedVariadic_refines numericReflect enum123
      (ptrTo (FuncOf [.slice (.basic .int)] [boolType] true) 1) noFuncs).1 (by decide),
    by decide, by decide, by decide, by decide, by decide⟩

/-- C19: when `setTypedMethod` panics, for any of the three methods, the function
variables of the caller are what they were before the call: the check comes before the
only assignment. -/
theorem rejected_target_unchanged (R : Reflect) (e : Enum) (targetFunc : Value)
    (method : Method) (mem : Memory) (p : Panic)
    (h : (e.setTypedMethod R targetFunc method mem).1 = .error p) :
    (e.setTypedMethod R targetFunc method mem).2 = mem ∧
    e.supportedFunctionTypeOrPanic R targetFunc method.IsVariadic = .error p := by
  cases hc : e.supportedFunctionTypeOrPanic R targetFunc method.IsVariadic with
  | error q =>
    rw [setTypedMethod_error R e targetFunc method mem q hc] at h ⊢
    exact ⟨rfl, congrArg Except.error (Except.error.inj h)⟩
  | ok u =>
    have := (setTypedMethod_ok_iff R e targetFunc method mem).mpr hc
    rw [this] at h
    simp at h

/-- C19, witness: `New(1, 2, 3)` and a target `func(string) bool`. -/
theorem rejected_target_unchanged_witness :
    (enum123.setTypedMethod numericReflect
      (ptrTo (FuncOf [.basic .string] [boolType] false) 1) .IsValid noFuncs).2 = noFuncs ∧
    enum123.supportedFunctionTypeOrPanic numericReflect
      (ptrTo (FuncOf [.basic .string] [boolType] false) 1) Method.IsValid.IsVariadic =
      .error (.shape (FuncOf [.basic .int] [boolType] false)
        (.ptr (FuncOf [.basic .string] [boolType] false)) .checkIn none) :=
  rejected_target_unchanged numericReflect enum123
    (ptrTo (FuncOf [.basic .string] [boolType] false) 1) .IsValid noFuncs _ (by decide)

/-! ## The typed methods: no type mismatch at call time -/

theorem IsAnyValid_ok_of_supported (R : Reflect) (e : Enum) (cs : List Value)
    (hs : ∀ c ∈ cs, e.isSupportedValueType R (TypeOf c) = .ok true) :
    ∃ b, e.IsAnyValid R cs = .ok b := by
  induction cs with
  | nil => exact ⟨false, rfl⟩
  | cons c cs ih =>
    obtain ⟨b, hb⟩ := IsValid_ok_of_supported R e c (hs c (List.mem_cons_self _ _))
    rw [IsAnyValid_cons, hb]
    cases b with
    | true => exact ⟨true, rfl⟩
    | false => exact ih (fun r hr => hs r (List.mem_cons_of_mem _ hr))

theorem AreAllValid_ok_of_supported (R : Reflect) (e : Enum) (cs : List Value)
    (hs : ∀ c ∈ cs, e.isSupportedValueType R (TypeOf c) = .ok true) :
    ∃ b, e.AreAllValid R cs = .ok b := by
  induction cs with
  | nil => exact ⟨true, rfl⟩
  | cons c cs ih =>
    obtain ⟨b, hb⟩ := IsValid_ok_of_supported R e c (hs c (List.mem_cons_self _ _))
    rw [AreAllValid_cons, hb]
    cases b with
    | false => exact ⟨false, rfl⟩
    | true => exact ih (fun r hr => hs r (List.mem_cons_of_mem _ hr))

/-- C15: when `setTypedMethod` accepts a target, for any of the three methods, the
function it installs returns a boolean, without any panic, on every argument of the
declared parameter type: for `IsValid` an argument whose type is the type of the
parameter, for `IsAnyValid` and `AreAllValid` a slice whose elements have the element
type of the parameter. The check has established that this type is supported. -/
theorem installed_function_returns (R : Reflect) (e : Enum) (targetFunc : Value)
    (method : Method) (mem : Memory)
    (h : (e.setTypedMethod R targetFunc method mem).1 = .ok ()) :
    ∃ typ in0, (e.setTypedMethod R targetFunc method mem).2 targetFunc.addr =
        .made typ e method ∧ typ.NumIn = 1 ∧ typ.In 0 = some in0 ∧
      (method.IsVariadic = false → e.isSupportedValueType R (some in0) = .ok true ∧
        ∀ x : RValue, TypeOf x.Interface = some in0 →
          ∃ b, (FuncVal.made typ e method).call R [x] = .ok [goBool b]) ∧
      (method.IsVariadic = true → ∃ el, in0.Elem = some el ∧
        e.isSupportedValueType R (some el) = .ok true ∧
        ∀ s : RValue, (∀ v ∈ s.elems, TypeOf v = some el) →
          ∃ b, (FuncVal.made typ e method).call R [s] = .ok [goBool b]) := by
  obtain ⟨T, pt, t, hT, _, _, hw, hmem⟩ :=
    setTypedMethod_installs R e targetFunc method mem h
  obtain ⟨b0, hb0, hiff⟩ := wrongInArgs_eq R e T t method.IsVariadic hT
  rw [hw] at hb0
  have hb : b0 = false := (Except.ok.inj hb0).symm
  obtain ⟨hn, in0, hin, hcase⟩ := hiff.mp hb
  refine ⟨t, in0, hmem, hn, hin, ?_, ?_⟩
  · intro hv
    rcases hcase with ⟨_, hsup⟩ | ⟨hv2, _⟩
    · refine ⟨hsup, ?_⟩
      intro x hx
      have hm : method = .IsValid := by
        cases method <;> simp [Method.IsVariadic] at hv ⊢
      subst hm
      obtain ⟨b, hb⟩ := IsValid_ok_of_supported R e x.Interface (by rw [hx]; exact hsup)
      exact ⟨b, by simp [FuncVal.call, typedMethod_IsValid, hb, Except.map]⟩
    · rw [hv] at hv2
      exact absurd hv2 (by decide)
  · intro hv
    rcases hcase with ⟨hv2, _⟩ | ⟨_, _, el, hel, hsup⟩
    · rw [hv] at hv2
      exact absurd hv2 (by decide)
    · refine ⟨el, hel, hsup, ?_⟩
      intro s hs
      have hall : ∀ c ∈ s.elems, e.isSupportedValueType R (TypeOf c) = .ok true := by
        intro c hc
        rw [hs c hc]
        exact hsup
      cases method with
      | IsValid => simp [Method.IsVariadic] at hv
      | IsAnyValid =>
        obtain ⟨b, hb⟩ := IsAnyValid_ok_of_supported R e s.elems hall
        exact ⟨b, by simp [FuncVal.call, typedMethod_IsAnyValid, hb, Except.map]⟩
      | AreAllValid =>
        obtain ⟨b, hb⟩ := AreAllValid_ok_of_supported R e s.elems hall
        exact ⟨b, by simp [FuncVal.call, typedMethod_AreAllValid, hb, Except.map]⟩

/-- C15, witness: `NewConvert(1, 2, 3)` and a target `func(float64) bool`. -/
theorem installed_function_returns_witness :
    ∃ typ in0, (enumConvert123.setTypedMethod numericReflect
        (ptrTo (FuncOf [.basic .float64] [boolType] false) 1) .IsValid noFuncs).2
        (ptrTo (FuncOf [.basic .float64] [boolType] false) 1).addr =
        .made typ enumConvert123 .IsValid ∧ typ.NumIn = 1 ∧ typ.In 0 = some in0 ∧
      (Method.IsValid.IsVariadic = false →
        enumConvert123.isSupportedValueType numericReflect (some in0) = .ok true ∧
        ∀ x : RValue, TypeOf x.Interface = some in0 →
          ∃ b, (FuncVal.made typ enumConvert123 .IsValid).call numericReflect [x] =
            .ok [goBool b]) ∧
      (Method.IsValid.IsVariadic = true → ∃ el, in0.Elem = some el ∧
        enumConvert123.isSupportedValueType numericReflect (some el) = .ok true ∧
        ∀ s : RValue, (∀ v ∈ s.elems, TypeOf v = some el) →
          ∃ b, (FuncVal.made typ enumConvert123 .IsValid).call numericReflect [s] =
            .ok [goBool b]) :=
  installed_function_returns numericReflect enumConvert123
    (ptrTo (FuncOf [.basic .float64] [boolType] false) 1) .IsValid noFuncs (by decide)

/-! ## The typed methods: which targets are accepted -/

theorem isSupportedValueType_true_iff (R : Reflect) (e : Enum) (t T : GoType)
    (hT : e.valueType = some T) :
    e.isSupportedValueType R (some t) = .ok true ↔
      (t = T ∨ (e.convertValues = true ∧ R.convertibleTo t T = true)) := by
  rw [isSupportedValueType_some R e t T hT]
  simp

theorem isHashable_Kind_ne_Slice (T : GoType) (h : isHashable T = true) :
    T.Kind ≠ Kind.Slice := by
  intro hk
  simp [isHashable, hk] at h

/-- C16 (as amended): for an Enum with a value type, any of the three methods and a
target that is not nil and not a nil pointer, `setTypedMethod` succeeds exactly when the
target is a pointer to a function with exactly one parameter and exactly one result, of
type `bool`, and, for `IsValid`, the type of the parameter is the value type or, in
convert mode, convertible to it, or, for `IsAnyValid` and `AreAllValid`, the type of the
parameter has kind `Slice` and its element type is the value type or, in convert mode,
convertible to it. In every other case it panics with the shape-mismatch message. -/
theorem setTypedMethod_accepts_iff (R : Reflect) (e : Enum) (T : GoType)
    (method : Method) (pt : GoType) (d : Data) (mem : Memory)
    (hT : e.valueType = some T)
    (hnil : pt.Kind = Kind.Ptr → Value.addr (.mk pt d) ≠ 0) :
    ((e.setTypedMethod R (.mk pt d) method mem).1 = .ok () ↔
      pt.Kind = Kind.Ptr ∧ ∃ t, pt.Elem = some t ∧ t.Kind = Kind.Func ∧
        t.NumIn = 1 ∧ t.NumOut = 1 ∧ t.Out 0 = some boolType ∧ ∃ in0, t.In 0 = some in0 ∧
          ((method = .IsValid ∧
              (in0 = T ∨ (e.convertValues = true ∧ R.convertibleTo in0 T = true))) ∨
            (method ≠ .IsValid ∧ in0.Kind = Kind.Slice ∧ ∃ el, in0.Elem = some el ∧
              (el = T ∨ (e.convertValues = true ∧ R.convertibleTo el T = true))))) ∧
    ((e.setTypedMethod R (.mk pt d) method mem).1 ≠ .ok () →
      ∃ x details c, (e.setTypedMethod R (.mk pt d) method mem).1 =
        .error (.shape x pt details c)) := by
  have hvar : ∀ b, method.IsVariadic = b ↔ (if b then method ≠ .IsValid else method = .IsValid) := by
    intro b
    cases method <;> cases b <;> simp [Method.IsVariadic]
  constructor
  · rw [setTypedMethod_ok_iff, supportedFunctionType_ok_iff]
    constructor
    · rintro ⟨T1, pt1, t, hT1, hpt, hk, _, hel, hf, hw, ho1, ho2⟩
      have e1 : pt1 = pt := by simpa [TypeOf] using hpt.symm
      subst e1
      have e2 : T1 = T := by rw [hT] at hT1; exact (Option.some.inj hT1).symm
      subst e2
      obtain ⟨b0, hb0, hiff⟩ := wrongInArgs_eq R e T1 t method.IsVariadic hT
      rw [hw] at hb0
      obtain ⟨hn, in0, hin, hcase⟩ := hiff.mp (Except.ok.inj hb0).symm
      refine ⟨hk, t, hel, hf, hn, ho1, ho2, in0, hin, ?_⟩
      rcases hcase with ⟨hv, hs⟩ | ⟨hv, hsl, el, hel2, hs⟩
      · exact Or.inl ⟨by simpa using (hvar false).mp hv,
          (isSupportedValueType_true_iff R e in0 T1 hT).mp hs⟩
      · exact Or.inr ⟨by simpa using (hvar true).mp hv, hsl, el, hel2,
          (isSupportedValueType_true_iff R e el T1 hT).mp hs⟩
    · rintro ⟨hk, t, hel, hf, hn, ho1, ho2, in0, hin, hcase⟩
      refine ⟨T, pt, t, hT, rfl, hk, hnil hk, hel, hf, ?_, ho1, ho2⟩
      obtain ⟨b0, hb0, hiff⟩ := wrongInArgs_eq R e T t method.IsVariadic hT
      have : b0 = false := by
        refine hiff.mpr ⟨hn, in0, hin, ?_⟩
        rcases hcase with ⟨hm, hs⟩ | ⟨hm, hsl, el, hel2, hs⟩
        · exact Or.inl ⟨(hvar false).mpr (by simpa using hm),
            (isSupportedValueType_true_iff R e in0 T hT).mpr hs⟩
        · exact Or.inr ⟨(hvar true).mpr (by simpa using hm), hsl, el, hel2,
            (isSupportedValueType_true_iff R e el T hT).mpr hs⟩
      rw [hb0, this]
  · intro hne
    cases hc : e.supportedFunctionTypeOrPanic R (.mk pt d) method.IsVariadic with
    | ok u => exact absurd ((setTypedMethod_ok_iff R e _ method mem).mpr hc) hne
    | error p =>
      obtain ⟨x, details, c, hp⟩ :=
        supportedFunctionType_error_shape R e T pt d method.IsVariadic p hT hnil hc
      rw [setTypedMethod_error R e _ method mem p hc, hp]
      exact ⟨x, details, c, rfl⟩

/-- C16, witness: `func(float64) bool` is accepted on `NewConvert(1, 2, 3)`;
`func(float32) bool` on `New(1, 2, 3)` and `func(string) bool` on `NewConvert(1, 2, 3)`
are rejected with the shape-mismatch message. -/
theorem setTypedMethod_accepts_iff_witness :
    (enumConvert123.setTypedMethod numericReflect
      (.mk (.ptr (FuncOf [.basic .float64] [boolType] false)) (.ref 1)) .IsValid noFuncs).1
      = .ok () ∧
    (enum123.setTypedMethod numericReflect
      (.mk (.ptr (FuncOf [.basic .float32] [boolType] false)) (.ref 1)) .IsValid noFuncs).1
      = .error (.shape (FuncOf [.basic .int] [boolType] false)
          (.ptr (FuncOf [.basic .float32] [boolType] false)) .checkIn none) ∧
    (enumConvert123.setTypedMethod numericReflect
      (.mk (.ptr (FuncOf [.basic .string] [boolType] false)) (.ref 1)) .IsValid noFuncs).1
      = .error (.shape (FuncOf [.basic .int] [boolType] false)
          (.ptr (FuncOf [.basic .string] [boolType] false)) .checkIn
          (some (.basic .int))) :=
  ⟨(setTypedMethod_accepts_iff numericReflect enumConvert123 (.basic .int) .IsValid
      (.ptr (FuncOf [.basic .float64] [boolType] false)) (.ref 1) noFuncs rfl
      (fun _ => by decide)).1.mpr
      ⟨by decide, FuncOf [.basic .float64] [boolType] false, by decide, by decide, by decide,
        by decide, by decide, .basic .float64, by decide,
        Or.inl ⟨rfl, Or.inr ⟨by decide, by decide⟩⟩⟩,
    by decide, by decide⟩

/-- C16, counterexample: the target `func(int) bool` has one parameter, of the value
type of `New(1, 2, 3)`, and one result, of type `bool`, yet `SetTypedIsAnyValid` rejects
it with the shape-mismatch message ("check IN args"): for a variadic method the code
requires a parameter of kind `Slice`. -/
theorem SetTypedIsAnyValid_rejects_scalar :
    (FuncOf [.basic .int] [boolType] false).NumIn = 1 ∧
    (FuncOf [.basic .int] [boolType] false).In 0 = enum123.valueType ∧
    (FuncOf [.basic .int] [boolType] false).NumOut = 1 ∧
    (FuncOf [.basic .int] [boolType] false).Out 0 = some boolType ∧
    New [goInt 1, goInt 2, goInt 3] = .ok enum123 ∧
    (enum123.SetTypedIsAnyValid numericReflect
      (ptrTo (FuncOf [.basic .int] [boolType] false) 1) noFuncs).1
      = .error (.shape (FuncOf [.slice (.basic .int)] [boolType] true)
          (.ptr (FuncOf [.basic .int] [boolType] false)) .checkIn none) := by
  refine ⟨by decide, by decide, by decide, by decide, by decide, by decide⟩

/-- With a value type and a target that is a non-nil pointer, `setTypedMethod` panics
with the shape-mismatch message whenever the check does not pass. -/
theorem setTypedMethod_rejects_with_shape (R : Reflect) (e : Enum) (T : GoType)
    (method : Method) (pt : GoType) (d : Data) (mem : Memory) (hT : e.valueType = some T)
    (ha : Value.addr (.mk pt d) ≠ 0)
    (hne : ¬ e.supportedFunctionTypeOrPanic R (.mk pt d) method.IsVariadic = .ok ()) :
    ∃ x details c, (e.setTypedMethod R (.mk pt d) method mem).1 =
      .error (.shape x pt details c) := by
  cases hc : e.supportedFunctionTypeOrPanic R (.mk pt d) method.IsVariadic with
  | ok u => exact absurd hc hne
  | error p =>
    obtain ⟨x, details, c, hp⟩ :=
      supportedFunctionType_error_shape R e T pt d method.IsVariadic p hT (fun _ => ha) hc
    rw [setTypedMethod_error R e _ method mem p hc, hp]
    exact ⟨x, details, c, rfl⟩

/-- When the check passes on a pointer to a function of type `t`, this function has
exactly one parameter, which for a method that is not variadic has a supported type and
for a variadic method has kind `Slice`. -/
theorem supportedFunctionType_ok_param (R : Reflect) (e : Enum) (method : Method)
    (pt : GoType) (d : Data) (t : GoType) (hel : pt.Elem = some t)
    (hc : e.supportedFunctionTypeOrPanic R (.mk pt d) method.IsVariadic = .ok ()) :
    t.NumIn = 1 ∧ ∃ in0, t.In 0 = some in0 ∧
      ((method.IsVariadic = false ∧ e.isSupportedValueType R (some in0) = .ok true) ∨
        (method.IsVariadic = true ∧ in0.Kind = Kind.Slice)) := by
  obtain ⟨T1, pt1, t1, hT1, hpt, _, _, hel1, _, hw, _⟩ :=
    (supportedFunctionType_ok_iff R e _ method.IsVariadic).mp hc
  have e1 : pt1 = pt := by simpa [TypeOf] using hpt.symm
  subst e1
  have e2 : t1 = t := by rw [hel] at hel1; exact (Option.some.inj hel1).symm
  subst e2
  obtain ⟨b0, hb0, hiff⟩ := wrongInArgs_eq R e T1 t1 method.IsVariadic hT1
  rw [hw] at hb0
  obtain ⟨hn, in0, hin, hcase⟩ := hiff.mp (Except.ok.inj hb0).symm
  refine ⟨hn, in0, hin, ?_⟩
  rcases hcase with ⟨hv, hs⟩ | ⟨hv, hsl, _⟩
  · exact Or.inl ⟨hv, hs⟩
  · exact Or.inr ⟨hv, hsl⟩

/-- Where the rejection of a variadic target by `SetTypedIsValid` does hold: for an Enum
with a hashable value type and a non-nil pointer to a variadic function, whatever the
number of its parameters, the final one being of kind `Slice` as Go has it, the method
panics with the shape-mismatch message when the Enum is in strict mode, and in convert
mode when the slice type of the final parameter is not convertible to the value
type. -/
theorem SetTypedIsValid_rejects_variadic (R : Reflect) (e : Enum) (T : GoType)
    (pt : GoType) (d : Data) (t : GoType) (mem : Memory) (hT : e.valueType = some T)
    (hh : isHashable T = true) (ha : Value.addr (.mk pt d) ≠ 0) (hel : pt.Elem = some t)
    (hv : t.IsVariadic = true)
    (hwf : t.IsVariadic = true → ∀ last, t.In (t.NumIn - 1) = some last →
      last.Kind = Kind.Slice)
    (hconv : e.convertValues = false ∨
      ∀ last, t.In (t.NumIn - 1) = some last → R.convertibleTo last T = false) :
    ∃ x details c, (e.SetTypedIsValid R (.mk pt d) mem).1 =
      .error (.shape x pt details c) := by
  apply setTypedMethod_rejects_with_shape R e T .IsValid pt d mem hT ha
  intro hc
  obtain ⟨hn, in0, hin0, hcase⟩ := supportedFunctionType_ok_param R e .IsValid pt d t hel hc
  have hlast : t.In (t.NumIn - 1) = some in0 := by rw [hn]; exact hin0
  have hsl := hwf hv in0 hlast
  rcases hcase with ⟨_, hs⟩ | ⟨hv2, _⟩
  · rcases (isSupportedValueType_true_iff R e in0 T hT).mp hs with h1 | ⟨h1, h2⟩
    · rw [h1] at hsl
      exact isHashable_Kind_ne_Slice T hh hsl
    · rcases hconv with h3 | h3
      · rw [h1] at h3
        exact absurd h3 (by decide)
      · rw [h3 in0 hlast] at h2
        exact absurd h2 (by decide)
  · simp [Method.IsVariadic] at hv2

/-- For an Enum with a value type and a non-nil pointer to a function, `SetTypedIsAnyValid`
and `SetTypedAreAllValid` panic with the shape-mismatch message on every target that
has no first parameter of kind `Slice`: a scalar parameter, no parameter, or several. -/
theorem variadic_method_rejects_scalar (R : Reflect) (e : Enum) (T : GoType)
    (method : Method) (pt : GoType) (d : Data) (t : GoType) (mem : Memory)
    (hT : e.valueType = some T) (ha : Value.addr (.mk pt d) ≠ 0) (hel : pt.Elem = some t)
    (hm : method ≠ .IsValid)
    (hin : t.NumIn = 1 → ∀ in0, t.In 0 = some in0 → in0.Kind ≠ Kind.Slice) :
    ∃ x details c, (e.setTypedMethod R (.mk pt d) method mem).1 =
      .error (.shape x pt details c) := by
  apply setTypedMethod_rejects_with_shape R e T method pt d mem hT ha
  intro hc
  obtain ⟨hn, in0, hin0, hcase⟩ := supportedFunctionType_ok_param R e method pt d t hel hc
  rcases hcase with ⟨hv, _⟩ | ⟨_, hsl⟩
  · cases method <;> simp [Method.IsVariadic] at hv hm
  · exact hin hn in0 hin0 hsl

/-- C17, the code at the failing input: the target `func(...byte) bool` is variadic, yet
on `NewConvert("a", "b")` the method `SetTypedIsValid` does not panic with the
shape-mismatch message: it returns and installs a function, which called with the byte
97 looks up the string "a" and returns true. The check for `IsValid` only asks whether
the type of the parameter, `[]byte`, is supported, and `[]byte` is convertible to
`string`; it never asks whether the target is variadic. On the strict Enum
`New("a", "b")` the same target is rejected with the shape-mismatch message ("check IN
args"), as is `func(...int) bool` on `New(1, 2, 3)` and on `NewConvert(1, 2, 3)`. -/
theorem SetTypedIsValid_accepts_variadic :
    (FuncOf [.slice (.basic .uint8)] [boolType] true).IsVariadic = true ∧
    NewConvert [goString [97], goString [98]] = .ok enumConvertAB ∧
    (enumConvertAB.SetTypedIsValid bytesReflect
      (ptrTo (FuncOf [.slice (.basic .uint8)] [boolType] true) 1) noFuncs).1 = .ok () ∧
    (enumConvertAB.SetTypedIsValid bytesReflect
      (ptrTo (FuncOf [.slice (.basic .uint8)] [boolType] true) 1) noFuncs).2 1 =
      .made (FuncOf [.slice (.basic .uint8)] [boolType] true) enumConvertAB .IsValid ∧
    ((enumConvertAB.SetTypedIsValid bytesReflect
      (ptrTo (FuncOf [.slice (.basic .uint8)] [boolType] true) 1) noFuncs).2 1).call
      bytesReflect [⟨.mk (.slice (.basic .uint8)) (.str [97]),
        [.mk (.basic .uint8) (.uint 97)]⟩] = .ok [goBool true] ∧
    (∃ e, New [goString [97], goString [98]] = .ok e ∧
      (e.SetTypedIsValid bytesReflect
        (ptrTo (FuncOf [.slice (.basic .uint8)] [boolType] true) 1) noFuncs).1 =
        .error (.shape (FuncOf [.basic .string] [boolType] false)
          (.ptr (FuncOf [.slice (.basic .uint8)] [boolType] true)) .checkIn none)) ∧
    (enum123.SetTypedIsValid bytesReflect
      (ptrTo (FuncOf [.slice (.basic .int)] [boolType] true) 1) noFuncs).1 =
      .error (.shape (FuncOf [.basic .int] [boolType] false)
        (.ptr (FuncOf [.slice (.basic .int)] [boolType] true)) .checkIn none) ∧
    (enumConvert123.SetTypedIsValid bytesReflect
      (ptrTo (FuncOf [.slice (.basic .int)] [boolType] true) 1) noFuncs).1 =
      .error (.shape (FuncOf [.basic .int] [boolType] false)
        (.ptr (FuncOf [.slice (.basic .int)] [boolType] true)) .checkIn
        (some (.basic .int))) := by
  refine ⟨by decide, by decide, by decide, by decide, by decide,
    ⟨⟨entries [goString [97], goString [98]], some (.basic .string), false⟩,
      by decide, by decide⟩, by decide, by decide⟩

/-! ## The tests of the typed methods, on the embedding -/

/-- The cases of `TestSetTypedMethodsWithWrongFuncTypesPanics` up to "wrong in arg
type", with the detail each panic carries. -/
theorem test_SetTypedMethodsWithWrongFuncTypes_in :
    (enum123.SetTypedIsValid numericReflect
      (.mk (FuncOf [.basic .int] [boolType] false) (.ref 0)) noFuncs).1 =
      .error (.shape (FuncOf [.basic .int] [boolType] false)
        (FuncOf [.basic .int] [boolType] false) .notPointer none) ∧
    (enum123.SetTypedIsValid numericReflect (ptrTo (.basic .int) 1) noFuncs).1 =
      .error (.shape (FuncOf [.basic .int] [boolType] false) (.ptr (.basic .int))
        .notFunction none) ∧
    (enum123.SetTypedIsValid numericReflect (ptrTo (FuncOf [] [boolType] false) 1) noFuncs).1 =
      .error (.shape (FuncOf [.basic .int] [boolType] false)
        (.ptr (FuncOf [] [boolType] false)) .checkIn none) ∧
    (enum123.SetTypedIsValid numericReflect
      (ptrTo (FuncOf [.basic .int, .basic .int] [boolType] false) 1) noFuncs).1 =
      .error (.shape (FuncOf [.basic .int] [boolType] false)
        (.ptr (FuncOf [.basic .int, .basic .int] [boolType] false)) .checkIn none) ∧
    (enum123.SetTypedIsValid numericReflect
      (ptrTo (FuncOf [.basic .string] [boolType] false) 1) noFuncs).1 =
      .error (.shape (FuncOf [.basic .int] [boolType] false)
        (.ptr (FuncOf [.basic .string] [boolType] false)) .checkIn none) ∧
    (enum123.SetTypedIsValid numericReflect
      (ptrTo (FuncOf [.basic .float32] [boolType] false) 1) noFuncs).1 =
      .error (.shape (FuncOf [.basic .int] [boolType] false)
        (.ptr (FuncOf [.basic .float32] [boolType] false)) .checkIn none) ∧
    (enumConvert123.SetTypedIsValid numericReflect
      (ptrTo (FuncOf [.basic .string] [boolType] false) 1) noFuncs).1 =
      .error (.shape (FuncOf [.basic .int] [boolType] false)
        (.ptr (FuncOf [.basic .string] [boolType] false)) .checkIn (some (.basic .int))) ∧
    (enumConvert123.SetTypedIsValid numericReflect
      (ptrTo (FuncOf [.basic .float64] [boolType] false) 1) noFuncs).1 = .ok () := by
  decide

/-- The cases of `TestSetTypedMethodsWithWrongFuncTypesPanics` on the variadic and scalar
parameters and on the results. -/
theorem test_SetTypedMethodsWithWrongFuncTypes_out :
    (enum123.SetTypedIsValid numericReflect
      (ptrTo (FuncOf [.slice (.basic .int)] [boolType] true) 1) noFuncs).1 =
      .error (.shape (FuncOf [.basic .int] [boolType] false)
        (.ptr (FuncOf [.slice (.basic .int)] [boolType] true)) .checkIn none) ∧
    (enum123.SetTypedIsAnyValid numericReflect
      (ptrTo (FuncOf [.basic .int] [boolType] false) 1) noFuncs).1 =
      .error (.shape (FuncOf [.slice (.basic .int)] [boolType] true)
        (.ptr (FuncOf [.basic .int] [boolType] false)) .checkIn none) ∧
    (enum123.SetTypedIsValid numericReflect
      (ptrTo (FuncOf [.basic .int] [] false) 1) noFuncs).1 =
      .error (.shape (FuncOf [.basic .int] [boolType] false)
        (.ptr (FuncOf [.basic .int] [] false)) .checkOut none) ∧
    (enum123.SetTypedIsValid numericReflect
      (ptrTo (FuncOf [.basic .int] [boolType, boolType] false) 1) noFuncs).1 =
      .error (.shape (FuncOf [.basic .int] [boolType] false)
        (.ptr (FuncOf [.basic .int] [boolType, boolType] false)) .checkOut none) ∧
    (enum123.SetTypedIsValid numericReflect
      (ptrTo (FuncOf [.basic .int] [.basic .int] false) 1) noFuncs).1 =
      .error (.shape (FuncOf [.basic .int] [boolType] false)
        (.ptr (FuncOf [.basic .int] [.basic .int] false)) .checkOut none) := by
  decide

/-- A nil target and a nil pointer to a function are rejected by `reflect`, with the
panic of taking the type of the zero `reflect.Value`, not with the shape-mismatch
message. -/
theorem nil_targets :
    (enum123.SetTypedIsValid numericReflect .nil noFuncs).1 = .error .zeroValue ∧
    (enum123.SetTypedIsValid numericReflect
      (ptrTo (FuncOf [.basic .int] [boolType] false) 0) noFuncs).1 = .error .zeroValue := by
  decide

/-- A variadic target with several parameters, `func(int, ...int) bool`, is rejected by
`SetTypedIsValid` in strict and in convert mode, for the number of its parameters. -/
theorem test_variadic_target_two_params :
    (FuncOf [.basic .int, .slice (.basic .int)] [boolType] true).IsVariadic = true ∧
    (enum123.SetTypedIsValid numericReflect
      (ptrTo (FuncOf [.basic .int, .slice (.basic .int)] [boolType] true) 1) noFuncs).1 =
      .error (.shape (FuncOf [.basic .int] [boolType] false)
        (.ptr (FuncOf [.basic .int, .slice (.basic .int)] [boolType] true)) .checkIn none) ∧
    (enumConvertAB.SetTypedIsValid bytesReflect
      (ptrTo (FuncOf [.basic .int, .slice (.basic .uint8)] [boolType] true) 1) noFuncs).1 =
      .error (.shape (FuncOf [.basic .string] [boolType] false)
        (.ptr (FuncOf [.basic .int, .slice (.basic .uint8)] [boolType] true)) .checkIn
        (some (.basic .string))) := by
  decide

end Enums
